import Mathlib

/-!
Verification of the AntCode replay viewer (`antcode-ui`) against its
natural-language specification.

The development shallowly embeds the parts of the code the claims touch:

* `antcode_ui/settings.py` — the `AntSettings` typed key/value store
  (`__setitem__`, `save`, `load`, `_validate_type`);
* `antcode_ui/base/command.py` — the `ConfigCommand` fuzzy key matcher
  (a model of `difflib.SequenceMatcher.ratio`) and the interactive
  configuration path;
* `antcode_ui/simulation.py` — the replay-log parser (`load_maps`) and
  the playback-cursor operations (`step_forward` / `step_backward`).

Python runtime values that can appear in the settings store (after
`json.load`) are modelled by the inductive type `JVal`; Python dicts are
insertion-ordered association lists; exceptions are modelled with
`Except PyError`.
-/

/-- A Python value as it may appear in the settings store: the result of
`json.load` plus the values produced by the config-command input
conversion.  Floats are carried as rationals (no float arithmetic is
performed by the code under verification). -/
inductive JVal where
  | null : JVal
  | bool : Bool → JVal
  | int : Int → JVal
  | float : ℚ → JVal
  | str : String → JVal
  | list : List JVal → JVal
  | obj : List (String × JVal) → JVal
  deriving Repr

/-- Python `type(v).__name__` for the values of `JVal`. -/
def JVal.typeName : JVal → String
  | .null => "NoneType"
  | .bool _ => "bool"
  | .int _ => "int"
  | .float _ => "float"
  | .str _ => "str"
  | .list _ => "list"
  | .obj _ => "dict"

/-- Python truthiness (`if x:`) for the values of `JVal`. -/
def JVal.truthy : JVal → Bool
  | .null => false
  | .bool b => b
  | .int n => n != 0
  | .float q => q != 0
  | .str s => s != ""
  | .list xs => !xs.isEmpty
  | .obj kvs => !kvs.isEmpty

/-- The Python exceptions that the modelled code can raise. -/
inductive PyError where
  | keyError (key : String)
  | typeError (msg : String)
  | attributeError (name : String)
  | indexError (msg : String)
  deriving Repr, DecidableEq

/-- First-match lookup in an insertion-ordered association list
(Python dict read `d[k]` / `d.get(k)`; keys are unique in an actual
dict, so first match is the dict entry). -/
def alookup (l : List (String × JVal)) (k : String) : Option JVal :=
  match l with
  | [] => none
  | (k', v) :: rest => if k' = k then some v else alookup rest k

/-- Python dict write `d[k] = v`: replace in place if the key exists,
otherwise append at the end (dicts preserve insertion order). -/
def ainsert (l : List (String × JVal)) (k : String) (v : JVal) :
    List (String × JVal) :=
  match l with
  | [] => [(k, v)]
  | (k', v') :: rest =>
      if k' = k then (k, v) :: rest else (k', v') :: ainsert rest k v

/-- Helper for `pySplit`: scan the character list, cutting a chunk at
every occurrence of the (non-empty) separator.  The fuel is the length
of the remaining list; every step consumes at least one character, so
the fuel never runs out (the `0` case is unreachable padding for
totality). -/
def pySplitAux (sep : List Char) : Nat → List Char → List Char →
    List (List Char)
  | _, [], acc => [acc.reverse]
  | 0, l, acc => [acc.reverse ++ l]
  | fuel + 1, c :: rest, acc =>
      if sep.isPrefixOf (c :: rest) then
        acc.reverse :: pySplitAux sep fuel ((c :: rest).drop sep.length) []
      else pySplitAux sep fuel rest (c :: acc)

/-- Python `s.split(sep)` for a non-empty separator: split at every
non-overlapping occurrence, left to right; `"".split(sep) == [""]` and
a separator-free string yields a one-element list. -/
def pySplit (sep l : List Char) : List (List Char) :=
  pySplitAux sep l.length l []

/-- The characters removed by Python `str.strip()` (the ASCII
whitespace set; the inputs under verification are ASCII). -/
def isPySpace (c : Char) : Bool :=
  c == ' ' || c == '\t' || c == '\n' || c == '\r' || c == '\x0b' || c == '\x0c'

/-- Python `s.strip()`: drop leading and trailing whitespace. -/
def pyStrip (l : List Char) : List Char :=
  ((l.dropWhile isPySpace).reverse.dropWhile isPySpace).reverse

/-- `AntSettings.DEFAULT_SETTINGS` from `antcode_ui/settings.py`:
`key ↦ [default value, type-tag]`. -/
def DEFAULT_SETTINGS : List (String × JVal × String) :=
  [("pauseOnStep", .bool true, "bool"),
   ("stepsPerSecond", .int 5, "int"),
   ("cellSize", .int 30, "int"),
   ("autoSave", .bool true, "bool"),
   ("stopOnLastStep", .bool true, "bool"),
   ("fancyGraphics", .bool false, "bool"),
   ("showTopBar", .bool true, "bool")]

/-- The `isinstance(value, type_map.get(expected_type, object))` test of
`AntSettings._validate_type` for a *hashable* tag: the tag string is
mapped through `type_map` (`bool/int/float/str/list/dict/NoneType`) with
fallback `object` for any unknown (or non-string but hashable) tag, so
such a tag accepts every value.  `isinstance` subtleties are kept:
Python `bool` is a subclass of `int`, so a `bool` value satisfies the
`"int"` tag. -/
def typeMatches (value : JVal) (expectedType : JVal) : Bool :=
  match expectedType with
  | .str "bool" => match value with | .bool _ => true | _ => false
  | .str "int" =>
      match value with | .bool _ => true | .int _ => true | _ => false
  | .str "float" => match value with | .float _ => true | _ => false
  | .str "str" => match value with | .str _ => true | _ => false
  | .str "list" => match value with | .list _ => true | _ => false
  | .str "dict" => match value with | .obj _ => true | _ => false
  | .str "NoneType" => match value with | .null => true | _ => false
  | _ => true

/-- `AntSettings._validate_type(value, expected_type)`.  The body is the
single expression `isinstance(value, type_map.get(expected_type,
object))`: when `expected_type` is a JSON array or object — a Python
`list` or `dict`, both unhashable — the dictionary probe
`type_map.get(...)` itself raises `TypeError: unhashable type: 'list'`
(resp. `'dict'`) before any `isinstance` test; for every hashable tag it
is the `isinstance` table `typeMatches`. -/
def validateType (value : JVal) (expectedType : JVal) : Except PyError Bool :=
  match expectedType with
  | .list _ => throw (.typeError "unhashable type: 'list'")
  | .obj _ => throw (.typeError "unhashable type: 'dict'")
  | t => pure (typeMatches value t)

/-- Python hashability of a JSON value: arrays (`list`) and objects
(`dict`) are unhashable, every other JSON value is hashable. -/
def pyHashable : JVal → Bool
  | .list _ => false
  | .obj _ => false
  | _ => true

/-- The mutable part of an `AntSettings` instance: the `data` and
`type_hints` dicts. -/
structure SettingsState where
  data : List (String × JVal)
  typeHints : List (String × JVal)
  deriving Repr

/-- `AntSettings.save`: builds `{key: [data[key], type_hints[key]]}`
iterating `data` in order and raises `KeyError` at the first `data` key
missing from `type_hints`.  On success, returns the JSON object written
to the settings file. -/
def AntSettings.save (s : SettingsState) : Except PyError JVal := do
  let combined ← s.data.mapM (fun kv =>
    match alookup s.typeHints kv.1 with
    | some t => pure (kv.1, JVal.list [kv.2, t])
    | none => throw (PyError.keyError kv.1))
  pure (.obj combined)

/-- Python membership `k in x` for a string `k` against a JSON value:
dict → key lookup, list → element equality (`k == elem`, true only for
an equal string), string → substring test; other types raise
`TypeError` ("argument of type ... is not iterable"). -/
def pyContainsKey (x : JVal) (k : String) : Except PyError Bool :=
  match x with
  | .obj kvs => pure (kvs.any (fun p => p.1 == k))
  | .list xs =>
      pure (xs.any (fun v => match v with | .str s => s == k | _ => false))
  | .str s => pure (k == "" || (pySplit k.toList s.toList).length > 1)
  | v => throw (.typeError ("argument of type '" ++ v.typeName ++
      "' is not iterable"))

/-- Python subscription `x[k]` with a string key. -/
def pyGetStr (x : JVal) (k : String) : Except PyError JVal :=
  match x with
  | .obj kvs =>
      match alookup kvs k with
      | some v => pure v
      | none => throw (.keyError k)
  | .list _ => throw (.typeError "list indices must be integers or slices, not str")
  | .str _ => throw (.typeError "string indices must be integers")
  | v => throw (.typeError ("'" ++ v.typeName ++ "' object is not subscriptable"))

/-- Python subscription `x[i]` with a non-negative integer index.
JSON object keys are always strings, so an integer lookup in a dict is a
`KeyError`. -/
def pyGetNat (x : JVal) (i : Nat) : Except PyError JVal :=
  match x with
  | .list xs =>
      match xs.get? i with
      | some v => pure v
      | none => throw (.indexError "list index out of range")
  | .str s =>
      match s.toList.get? i with
      | some c => pure (.str (String.mk [c]))
      | none => throw (.indexError "string index out of range")
  | .obj _ => throw (.keyError (toString i))
  | v => throw (.typeError ("'" ++ v.typeName ++ "' object is not subscriptable"))

/-- One iteration of the `for key, (value, expected_type) in
DEFAULT_SETTINGS.items()` loop of `AntSettings.load`: adopt the
persisted entry when `combined_data[key]` exists and its `[0]` element
validates against its `[1]` element, else install the built-in
default.  A `TypeError` raised by `_validate_type` itself (unhashable
stored tag) propagates: it is not in `load`'s caught-exception tuple. -/
def AntSettings.loadStep (combined : JVal) (st : SettingsState)
    (kvt : String × JVal × String) : Except PyError SettingsState := do
  let present ← pyContainsKey combined kvt.1
  if present then
    let entry ← pyGetStr combined kvt.1
    let currentValue ← pyGetNat entry 0
    let currentType ← pyGetNat entry 1
    let ok ← validateType currentValue currentType
    if ok then
      pure ⟨ainsert st.data kvt.1 currentValue,
            ainsert st.typeHints kvt.1 currentType⟩
    else
      pure ⟨ainsert st.data kvt.1 kvt.2.1,
            ainsert st.typeHints kvt.1 (.str kvt.2.2)⟩
  else
    pure ⟨ainsert st.data kvt.1 kvt.2.1,
          ainsert st.typeHints kvt.1 (.str kvt.2.2)⟩

/-- The settings state holding exactly the built-in defaults. -/
def defaultSettingsState : SettingsState :=
  ⟨DEFAULT_SETTINGS.map (fun kvt => (kvt.1, kvt.2.1)),
   DEFAULT_SETTINGS.map (fun kvt => (kvt.1, JVal.str kvt.2.2))⟩

/-- `AntSettings.load`.  `storage` is `.error ()` when reading or
decoding the settings file fails with one of the caught exceptions
(`FileNotFoundError` / `json.JSONDecodeError` / `UnicodeDecodeError`) —
that branch adopts the full default set — and `.ok v` when the file
parses to the JSON value `v`.  Exceptions raised while destructuring
entries (`TypeError` / `IndexError` / `KeyError`) are not caught by the
source and propagate.  Returns the post-load state together with the
JSON written by the immediate `self.save()`. -/
def AntSettings.load (storage : Except Unit JVal) :
    Except PyError (SettingsState × JVal) :=
  match storage with
  | .error () => do
      let written ← AntSettings.save defaultSettingsState
      pure (defaultSettingsState, written)
  | .ok combined => do
      let st ← DEFAULT_SETTINGS.foldlM (AntSettings.loadStep combined) ⟨[], []⟩
      let written ← AntSettings.save st
      pure (st, written)

/-- The unconditional tail of `AntSettings.__setitem__`:
`self.data[key] = value` followed by the auto-save check
`if self.data["autoSave"]:` (a `KeyError` if `autoSave` is absent). -/
def AntSettings.setItemStore (s : SettingsState) (key : String) (value : JVal) :
    Except PyError Unit × SettingsState × Option JVal :=
  let s' : SettingsState := ⟨ainsert s.data key value, s.typeHints⟩
  match alookup s'.data "autoSave" with
  | none => (.error (.keyError "autoSave"), s', none)
  | some av =>
      if av.truthy then
        match AntSettings.save s' with
        | .ok written => (.ok (), s', some written)
        | .error e => (.error e, s', none)
      else (.ok (), s', none)

/-- `AntSettings.__setitem__`.  Returns the outcome, the post-call
state (reflecting any mutation performed before a raise) and the JSON
written by the auto-save, if one happened.  When the key pre-exists the
value is validated against the stored type tag before any mutation;
when it does not, the value is stored with no type tag recorded.  If
`_validate_type` itself raises (unhashable stored tag), that `TypeError`
propagates before the mismatch message is built. -/
def AntSettings.setItem (s : SettingsState) (key : String) (value : JVal) :
    Except PyError Unit × SettingsState × Option JVal :=
  match alookup s.data key, alookup s.typeHints key with
  | some _, none => (.error (.keyError key), s, none)
  | some _, some expected =>
      match validateType value expected with
      | .error e => (.error e, s, none)
      | .ok true => AntSettings.setItemStore s key value
      | .ok false =>
          (.error (.typeError ("Expected value of type '" ++
            (match expected with | .str n => n | e => e.typeName) ++
            "' for key '" ++ key ++ "', got '" ++ value.typeName ++
            "' instead.")), s, none)
  | none, _ => AntSettings.setItemStore s key value

/-! ## Fuzzy key matching (`antcode_ui/base/command.py`)

`ConfigCommand.get_sorted_key_matches` scores every settings key with
`difflib.SequenceMatcher(None, key_name, key).ratio()`.  The matcher is
modelled exactly: `ratio = 2.0 * M / (len a + len b)` where `M` is the
total size of the matching blocks found by `find_longest_match` applied
recursively (no junk: the junk parameter is `None` and the autojunk
heuristic only fires for second sequences of length ≥ 200, far above
any settings key).  `ratio()` and the threshold tests of
`get_best_match_key` are computed in IEEE-754 binary64 ("double")
arithmetic, so scores are carried as the exact rational values of the
doubles the program computes: each basic operation rounds its exact
result to 53 significant bits, to nearest, ties to even (the values
arising here are far inside the normal range, so neither subnormals nor
overflow can occur), and double comparisons coincide with comparisons
of the represented rationals. -/

/-- difflib's `b2j`: the ascending list of positions of `c` in `b`. -/
def charPositions (b : List Char) (c : Char) : List Nat :=
  (List.range b.length).filter (fun j => b.get? j == some c)

/-- The running best block of `find_longest_match`:
`(besti, bestj, bestsize)`. -/
structure BestBlock where
  besti : Nat
  bestj : Nat
  bestsize : Nat
  deriving Repr, DecidableEq

/-- Lookup in the `j2len` dict (`j2len.get(j, 0)`). -/
def j2lenGet (m : List (Nat × Nat)) (j : Nat) : Nat :=
  match m with
  | [] => 0
  | (j', v) :: rest => if j' = j then v else j2lenGet rest j

/-- The inner `for j in b2j.get(a[i], [])` loop of
`find_longest_match` for a fixed `i`: `j < blo` entries are skipped,
the loop breaks at the first `j ≥ bhi` (positions are ascending),
`k = j2len.get(j-1, 0) + 1` extends the diagonal run (Python's `j - 1`
is `-1` when `j = 0`, which is never a key of `j2len`), and the best
block is updated on a strict improvement. -/
def flmInner (i blo bhi : Nat) :
    List Nat → List (Nat × Nat) → List (Nat × Nat) → BestBlock →
    List (Nat × Nat) × BestBlock
  | [], _, acc, best => (acc, best)
  | j :: js, old, acc, best =>
      if j < blo then flmInner i blo bhi js old acc best
      else if bhi ≤ j then (acc, best)
      else
        let k := (if j = 0 then 0 else j2lenGet old (j - 1)) + 1
        let best' := if best.bestsize < k then
            ⟨i + 1 - k, j + 1 - k, k⟩ else best
        flmInner i blo bhi js old ((j, k) :: acc) best'

/-- The outer `for i in range(alo, ahi)` loop of `find_longest_match`,
threading `j2len` from one row to the next. -/
def flmOuter (a b : List Char) (blo bhi : Nat) :
    List Nat → List (Nat × Nat) → BestBlock → BestBlock
  | [], _, best => best
  | i :: is, j2len, best =>
      let step := flmInner i blo bhi (charPositions b (a.getD i ' '))
        j2len [] best
      flmOuter a b blo bhi is step.1 step.2

/-- `SequenceMatcher.find_longest_match(alo, ahi, blo, bhi)` with an
empty junk set: the returned block is the leftmost-in-`a` (then
leftmost-in-`b`) longest matching block; the two junk-extension loops
of the source are no-ops. -/
def findLongestMatch (a b : List Char) (alo ahi blo bhi : Nat) : BestBlock :=
  flmOuter a b blo bhi (List.range' alo (ahi - alo)) [] ⟨alo, blo, 0⟩

/-- Total size of all matching blocks: the recursion of
`get_matching_blocks` (sum of `bestsize` over the recursive splits
around each longest match).  The fuel argument strictly exceeds the
recursion depth, which is bounded by the interval sizes since every
recursive split is on a strictly smaller interval. -/
def matchesAux (a b : List Char) :
    Nat → Nat → Nat → Nat → Nat → Nat
  | 0, _, _, _, _ => 0
  | fuel + 1, alo, ahi, blo, bhi =>
      let blk := findLongestMatch a b alo ahi blo bhi
      if blk.bestsize = 0 then 0
      else blk.bestsize + matchesAux a b fuel alo blk.besti blo blk.bestj +
        matchesAux a b fuel (blk.besti + blk.bestsize) ahi
          (blk.bestj + blk.bestsize) bhi

/-- The number of matched characters `M` used by
`SequenceMatcher.ratio`. -/
def totalMatches (a b : List Char) : Nat :=
  matchesAux a b (a.length + b.length + 1) 0 a.length 0 b.length

/-- Fueled floor binary logarithm on `Nat` (structural recursion so the
kernel can evaluate it; `nlog2 n n` is `⌊log₂ n⌋` for every `n ≥ 1`,
since the argument at least halves each step). -/
def nlog2 (fuel n : Nat) : Nat :=
  match fuel with
  | 0 => 0
  | f + 1 => if n ≤ 1 then 0 else nlog2 f (n / 2) + 1

/-- Decides `2 ^ e ≤ a / b` for positive naturals `a`, `b` and an
integer exponent `e`, by clearing denominators. -/
def le2pow (b a : Nat) (e : Int) : Bool :=
  if 0 ≤ e then Nat.ble (b * 2 ^ e.toNat) a else Nat.ble b (a * 2 ^ (-e).toNat)

/-- Rounds the positive rational `a / b` to IEEE-754 binary64
precision, to nearest with ties to even: returns `(n, e)` with the
rounded value `n * 2 ^ (e - 52)`, where `e = ⌊log₂ (a / b)⌋` and `n` is
`a / b` scaled into `[2 ^ 52, 2 ^ 53]` and rounded to an integer
half-to-even.  Exponents are unbounded, which agrees with binary64 for
all values inside the normal range (in this development every rounded
value lies in `[2 ^ -7, 2]`). -/
def roundMantissa (a b : Nat) : Nat × Int :=
  let e0 : Int := (nlog2 a a : Int) - (nlog2 b b : Int)
  let e : Int := if le2pow b a e0 then e0 else e0 - 1
  let shift : Int := 52 - e
  let sn : Nat := if 0 ≤ shift then a * 2 ^ shift.toNat else a
  let sd : Nat := if 0 ≤ shift then b else b * 2 ^ (-shift).toNat
  let n0 : Nat := sn / sd
  let r : Nat := sn % sd
  let n : Nat :=
    if 2 * r < sd then n0
    else if sd < 2 * r then n0 + 1
    else if n0 % 2 = 0 then n0 else n0 + 1
  (n, e)

/-- The rational `± n * 2 ^ (e - 52)` (written with `mkRat` so concrete
values evaluate inside the kernel). -/
def dyadicQ (neg : Bool) (n : Nat) (e : Int) : ℚ :=
  let k : Int := e - 52
  let sn : Int := if neg then -(n : Int) else (n : Int)
  if 0 ≤ k then mkRat (sn * ((2 ^ k.toNat : Nat) : Int)) 1
  else mkRat sn (2 ^ (-k).toNat)

/-- IEEE-754 binary64 division of naturals, `float(a) / float(b)` for
`a`, `b` exactly representable (here `a ≤ 200`, `b ≤ 100`): the exact
quotient rounded to double precision. -/
def floatDivNat (a b : Nat) : ℚ :=
  if a = 0 then 0
  else
    let p := roundMantissa a b
    dyadicQ false p.1 p.2

/-- Exact rational subtraction written through `mkRat` (proved equal to
`x - y` in `ratSub_eq_sub` below); used so that concrete score
computations evaluate inside the kernel. -/
def ratSub (x y : ℚ) : ℚ :=
  mkRat (x.num * (y.den : Int) - y.num * (x.den : Int)) (x.den * y.den)

/-- Rounds a rational to IEEE-754 binary64 precision (round to nearest,
ties to even, unbounded exponent — exact for the normal range). -/
def roundFloat (q : ℚ) : ℚ :=
  if q.num = 0 then 0
  else if 0 < q.num then
    let p := roundMantissa q.num.natAbs q.den
    dyadicQ false p.1 p.2
  else
    let p := roundMantissa q.num.natAbs q.den
    dyadicQ true p.1 p.2

/-- IEEE-754 binary64 subtraction of two exactly-represented doubles:
the exact difference, rounded. -/
def floatSub (x y : ℚ) : ℚ := roundFloat (ratSub x y)

/-- The exact value of the double literal `0.2`
(`(0.2).as_integer_ratio()` in Python: `3602879701896397 / 2 ^ 54`). -/
def FLOAT_0_2 : ℚ := mkRat 3602879701896397 18014398509481984

/-- The exact value of the double literal `0.1`
(`3602879701896397 / 2 ^ 55`). -/
def FLOAT_0_1 : ℚ := mkRat 3602879701896397 36028797018963968

/-- The exact value of the double literal `0.3`
(`5404319552844595 / 2 ^ 54`). -/
def FLOAT_0_3 : ℚ := mkRat 5404319552844595 18014398509481984

/-- `SequenceMatcher(None, a, b).ratio()`: the double
`2.0 * M / (len(a) + len(b))` — the numerator `2.0 * M` is exact in
binary64, so the single rounding is the division's — and `1.0` when
both strings are empty (difflib's `_calculate_ratio`). -/
def scoreOf (a b : String) : ℚ :=
  if a.length + b.length = 0 then 1
  else floatDivNat (2 * totalMatches a.toList b.toList) (a.length + b.length)

/-- Modelled from the claim's words, for comparison with the float
`scoreOf` the program computes: the mathematical similarity ratio
`2 * M / (len(a) + len(b))` as an exact rational. -/
def exactScore (a b : String) : ℚ :=
  if a.length + b.length = 0 then 1
  else mkRat (2 * totalMatches a.toList b.toList) (a.length + b.length)

/-- Stable insertion into a descending-by-score list: the new element
goes in front of the first element whose score is `≤` its own.  Used to
model Python's stable `sorted(..., key=score, reverse=True)`. -/
def insertDesc (x : String × ℚ) : List (String × ℚ) → List (String × ℚ)
  | [] => [x]
  | y :: ys => if y.2 ≤ x.2 then x :: y :: ys else y :: insertDesc x ys

/-- Stable descending sort by score (`foldr` keeps earlier elements in
front of equal-score later ones, as Python's stable sort does). -/
def sortDesc (l : List (String × ℚ)) : List (String × ℚ) :=
  l.foldr insertDesc []

/-- `ConfigCommand.get_sorted_key_matches(key_name)`: score every
settings key (in the encounter order of `settings.data`) and sort by
score, descending, stably. -/
def getSortedKeyMatches (keys : List String) (keyName : String) :
    List (String × ℚ) :=
  sortDesc (keys.map (fun k => (k, scoreOf keyName k)))

/-- Python `max` over a non-empty list (`max(scores)`); `0` is returned
for the empty list, which the caller rules out. -/
def listMax : List ℚ → ℚ
  | [] => 0
  | x :: xs => xs.foldl max x

/-- Python `min` over a non-empty list (`min(scores)`). -/
def listMin : List ℚ → ℚ
  | [] => 0
  | x :: xs => xs.foldl min x

/-- `ConfigCommand.get_best_match_key(key_name)`: `none` models the
`False` return ("No key found." / "No good match found.").  The
threshold tests `max(scores) < 0.2`,
`max(scores) - min(scores) < 0.1` and `max(scores) < 0.3` compare
doubles: the scores are the doubles `ratio()` produced, the literals
are the doubles `0.2` / `0.1` / `0.3`, and the spread is one rounded
binary64 subtraction. -/
def getBestMatchKey (keys : List String) (keyName : String) :
    Option String :=
  if (getSortedKeyMatches keys keyName).isEmpty then none
  else
    if listMax ((getSortedKeyMatches keys keyName).map (fun p => p.2)) <
        FLOAT_0_2 ∨
        (floatSub
          (listMax ((getSortedKeyMatches keys keyName).map (fun p => p.2)))
          (listMin ((getSortedKeyMatches keys keyName).map (fun p => p.2))) <
            FLOAT_0_1 ∧
         listMax ((getSortedKeyMatches keys keyName).map (fun p => p.2)) <
           FLOAT_0_3) then
      none
    else some (((getSortedKeyMatches keys keyName).headD ("", 0)).1)

/-- The key list of the default settings store, in encounter order. -/
def defaultKeys : List String := DEFAULT_SETTINGS.map (fun kvt => kvt.1)

/-- The attributes and methods defined on `AntSettings`
(`antcode_ui/settings.py`): instance attributes set in `__init__` and
non-dunder methods.  `get_key_description` is *not* among them. -/
def antSettingsAttrs : List String :=
  ["json_file", "data", "type_hints", "descriptions", "simulationPaused",
   "DEFAULT_SETTINGS", "SETTINGS_DESCRIPTIONS", "save", "load",
   "get_key_type", "_validate_type"]

/-- Python attribute access `settings.<name>`: `AttributeError` when the
name is not defined on the `AntSettings` class or instance. -/
def settingsGetAttr (name : String) : Except PyError Unit :=
  if name ∈ antSettingsAttrs then pure () else throw (.attributeError name)

/-- The `option == 1` branch of `ConfigCommand.update_config`
(`antcode_ui/base/command.py`, lines 368–404): read a key name, fuzzy
match it, then build the value prompt — whose f-string reads
`settings[matched_key]` and calls `settings.get_key_description(...)` —
before reading the new value.  Because the prompt is evaluated first,
the attribute lookup happens before the value `input()`; everything
after it is modelled but unreachable when the lookup raises. -/
def updateConfigModify (st : SettingsState) (keyInput : String)
    (valueInput : String) : Except PyError Bool := do
  let keyName := String.mk (pyStrip keyInput.toList)
  if keyName = "" then return false
  match getBestMatchKey (st.data.map (fun p => p.1)) keyName with
  | none => return false
  | some matchedKey =>
    match alookup st.data matchedKey with
    | none => throw (.keyError matchedKey)
    | some _ => do
      let _ ← settingsGetAttr "get_key_description"
      if valueInput = "" then return false
      return true

/-- The per-line exception handling of
`AntSimulation.get_console_input`: the loop body catches `KeyError`
only; any other exception escaping a command terminates the console
input thread. -/
def inputLoopSurvives (r : Except PyError Bool) : Bool :=
  match r with
  | .ok _ => true
  | .error (.keyError _) => true
  | .error _ => false

/-! ## Replay-log parser and playback state (`antcode_ui/simulation.py`)

`AntSimulation.load_maps` splits the file on a 30-`=` separator,
extracts `SIZE`/`WINNER` by regular-expression search, processes each
middle section into a `Round`, and requires exactly 200 accepted
rounds.  Text is handled as `List Char`, with `pySplit`/`pyStrip`
modelling `str.split`/`str.strip`.  Regular-expression searches
(`SIZE (\d+) (\d+)`, `ROUND (\d+)`, `NORTH (\d+)`, `SOUTH (\d+)`,
`WINNER (\w+)`) are modelled by direct scanners: each pattern is a
literal followed by greedy character classes, so the search is
deterministic (ASCII digits and word characters; the logs the program
consumes are ASCII). -/

/-- `VALID_MAP_CHARS` from `antcode_ui/__init__.py`:
`set("#.@XABCDEFGHabcdefgh123456789")`.  Note `I` and `J` are absent. -/
def VALID_MAP_CHARS : List Char := "#.@XABCDEFGHabcdefgh123456789".toList

/-- The 30-character section separator (`"=" * 30`). -/
def SEP30 : List Char := List.replicate 30 '='

/-- The 25-character board separator (`"=" * 25`). -/
def SEP25 : List Char := List.replicate 25 '='

/-- `int` on a non-empty digit string. -/
def natOfDigits (l : List Char) : Nat :=
  l.foldl (fun acc c => 10 * acc + (c.toNat - '0'.toNat)) 0

/-- `re.search(r"SIZE (\d+) (\d+)", s)`: try every start position left
to right; at a position the literal `"SIZE "` must match, then a
non-empty digit run, a space, and a second non-empty digit run. -/
def searchSize : List Char → Option (Nat × Nat)
  | [] => none
  | c :: rest =>
      let here :=
        if "SIZE ".toList.isPrefixOf (c :: rest) then
          let t := (c :: rest).drop 5
          let ds1 := t.takeWhile Char.isDigit
          if ds1.isEmpty then none
          else
            match t.dropWhile Char.isDigit with
            | ' ' :: r2 =>
                let ds2 := r2.takeWhile Char.isDigit
                if ds2.isEmpty then none
                else some (natOfDigits ds1, natOfDigits ds2)
            | _ => none
        else none
      match here with
      | some p => some p
      | none => searchSize rest

/-- `re.search(kw + r"(\d+)", s)` for a literal keyword (used with
`"ROUND "`, `"NORTH "`, `"SOUTH "`). -/
def searchNum (kw : List Char) : List Char → Option Nat
  | [] => none
  | c :: rest =>
      let here :=
        if kw.isPrefixOf (c :: rest) then
          let ds := ((c :: rest).drop kw.length).takeWhile Char.isDigit
          if ds.isEmpty then none else some (natOfDigits ds)
        else none
      match here with
      | some n => some n
      | none => searchNum kw rest

/-- `\w` (ASCII): letters, digits, underscore. -/
def isWordChar (c : Char) : Bool := c.isAlphanum || c == '_'

/-- `re.search(r"WINNER (\w+)", s)`. -/
def searchWinner : List Char → Option String
  | [] => none
  | c :: rest =>
      let here :=
        if "WINNER ".toList.isPrefixOf (c :: rest) then
          let ws := ((c :: rest).drop 7).takeWhile isWordChar
          if ws.isEmpty then none else some (String.mk ws)
        else none
      match here with
      | some w => some w
      | none => searchWinner rest

/-- One parsed round (`antcode_ui/base/round.py`); board rows are
character lists. -/
structure Round where
  number : Nat
  north_points : Nat
  south_points : Nat
  board : List (List Char)
  deriving Repr, DecidableEq

/-- The `for line in board` validation loop of `load_maps`: each line
must have length `cols` and only characters from `VALID_MAP_CHARS`
(else the loop raises, leaving the five-ant flag as accumulated so
far); after a line passes, `has_five_ants` is set if the line contains
both `'I'` and `'J'` (`{'I', 'J'} <= set(line)`).  Returns
`(all lines valid?, updated five-ant flag)`. -/
def checkBoardLines (cols : Nat) : List (List Char) → Bool → Bool × Bool
  | [], five => (true, five)
  | line :: rest, five =>
      if line.length == cols &&
          line.all (fun ch => VALID_MAP_CHARS.contains ch) then
        checkBoardLines cols rest
          (five || (line.contains 'I' && line.contains 'J'))
      else (false, five)

/-- Processing of one middle section of the log (the body of the
`for section in sections[1:]` loop).  Returns the updated five-ant
flag together with: `.ok none` when the section is skipped (empty or
wrong line count), `.ok (some round)` when accepted, `.error msg` for
the raised `ValueError`.  The inner `try`/`except ValueError` of the
source replaces both the "missing 25-`=` separator" error from
`lines.index` and the per-line "Invalid map format or invalid
characters detected" error with
`"Valid board data not found in section: <section>"`. -/
def processSection (rows cols : Nat) (five0 : Bool) (sec : List Char) :
    Bool × Except String (Option Round) :=
  if (pyStrip sec).isEmpty ||
      (pySplit ['\n'] (pyStrip sec)).length != 4 + rows then (five0, .ok none)
  else
    match searchNum "ROUND ".toList
        ((pySplit ['\n'] (pyStrip sec)).getD 0 []) with
    | none =>
        (five0, .error ("Round number not found in section: " ++ String.mk sec))
    | some roundNumber =>
      match searchNum "NORTH ".toList
            ((pySplit ['\n'] (pyStrip sec)).getD 1 []),
            searchNum "SOUTH ".toList
            ((pySplit ['\n'] (pyStrip sec)).getD 2 []) with
      | some north, some south =>
          (match (pySplit ['\n'] (pyStrip sec)).indexOf? SEP25 with
           | none =>
               (five0,
                .error ("Valid board data not found in section: " ++
                  String.mk sec))
           | some idx =>
               if (checkBoardLines cols
                   (((pySplit ['\n'] (pyStrip sec)).drop (idx + 1)).take rows)
                   five0).1 then
                 ((checkBoardLines cols
                   (((pySplit ['\n'] (pyStrip sec)).drop (idx + 1)).take rows)
                   five0).2,
                  .ok (some ⟨roundNumber, north, south,
                    ((pySplit ['\n'] (pyStrip sec)).drop (idx + 1)).take
                      rows⟩))
               else
                 ((checkBoardLines cols
                   (((pySplit ['\n'] (pyStrip sec)).drop (idx + 1)).take rows)
                   five0).2,
                  .error ("Valid board data not found in section: " ++
                    String.mk sec)))
      | _, _ =>
          (five0, .error ("Team points not found in section: " ++ String.mk sec))

/-- The fold of `processSection` over the middle sections, accumulating
accepted rounds in encounter order and threading the five-ant flag. -/
def parseSections (rows cols : Nat) :
    List (List Char) → List Round → Bool → Bool × Except String (List Round)
  | [], acc, five => (five, .ok acc)
  | sec :: rest, acc, five =>
      match processSection rows cols five sec with
      | (five', .error e) => (five', .error e)
      | (five', .ok none) => parseSections rows cols rest acc five'
      | (five', .ok (some r)) => parseSections rows cols rest (acc ++ [r]) five'

/-- The decoded result of a successful parse. -/
structure ReplayLog where
  boardSize : Nat × Nat
  winner : String
  rounds : List Round
  deriving Repr, DecidableEq

/-- The parsing part of `AntSimulation.load_maps`, from file content to
either a `ReplayLog` or the raised `ValueError` message, together with
the final value of `self.has_five_ants` (reset to `False` at the start
of `load_maps` and only ever set inside the board-validation loop). -/
def parseLog (content : String) : Bool × Except String ReplayLog :=
  let sections := pySplit SEP30 content.toList
  match searchSize (pyStrip (sections.headD [])) with
  | none => (false, .error "Board size not found.")
  | some bs =>
    match searchWinner (pyStrip (sections.getLastD [])) with
    | none => (false, .error "Winner not found.")
    | some w =>
      match parseSections bs.1 bs.2 (sections.drop 1) [] false with
      | (five, .error e) => (five, .error e)
      | (five, .ok rounds) =>
          if rounds.length != 200 then
            (five, .error ("File contains incomplete game data (" ++
              toString rounds.length ++ " rounds, " ++
              toString ((200 : Int) - (rounds.length : Int)) ++ " missing)"))
          else (five, .ok ⟨bs, w, rounds⟩)

/-- `BLANK_MAP` from `antcode_ui/__init__.py`: a 20-row placeholder
board (a wall border around 18 empty rows). -/
def BLANK_MAP : List (List Char) :=
  ["#####################".toList] ++
  List.replicate 18 "#...................#".toList ++
  ["#####################".toList]

/-- The slice of `AntSimulation` state the verified operations touch.
The source stores the "no log" board size as the pair `(None, None)`;
it is modelled as `none`.  `pauseOnStep` mirrors
`settings["pauseOnStep"]` and `simulationPaused` mirrors
`settings.simulationPaused`. -/
structure SimState where
  boardSize : Option (Nat × Nat)
  winner : Option String
  maps : Option (List Round)
  currentMapIndex : Int
  mapData : List (List Char)
  hasFiveAnts : Bool
  pauseOnStep : Bool
  simulationPaused : Bool
  deriving Repr

/-- A placeholder round (never read: every index used is in range). -/
def emptyRound : Round := ⟨0, 0, 0, []⟩

/-- `AntSimulation.load_maps` after the file dialog, given the file
content: on success install the log with the cursor at index 0, on a
`ValueError` fall back to the blank-map placeholder state. -/
def AntSimulation.loadMaps (content : String) (s : SimState) : SimState :=
  match parseLog content with
  | (five, .ok r) =>
      { s with
          boardSize := some r.boardSize, winner := some r.winner,
          maps := some r.rounds, currentMapIndex := 0,
          mapData := (r.rounds.headD emptyRound).board, hasFiveAnts := five }
  | (five, .error _) =>
      { s with
          currentMapIndex := 0, boardSize := none, winner := none,
          maps := none, mapData := BLANK_MAP, hasFiveAnts := five }

/-- `AntSimulation.step_forward`: no-op without a loaded log; pause if
`pauseOnStep`; advance the cursor by one modulo the round count
(`%` on Python ints is `Int.emod` for a positive modulus). -/
def AntSimulation.stepForward (s : SimState) : SimState :=
  match s.maps with
  | none => s
  | some maps =>
      if maps.length = 0 then s
      else
        let s1 := if s.pauseOnStep then { s with simulationPaused := true } else s
        let idx := (s1.currentMapIndex + 1) % (maps.length : Int)
        { s1 with
            currentMapIndex := idx,
            mapData := (maps.getD idx.toNat emptyRound).board }

/-- `AntSimulation.step_backward`: as `step_forward` with the cursor
retreating by one, wrapping below zero. -/
def AntSimulation.stepBackward (s : SimState) : SimState :=
  match s.maps with
  | none => s
  | some maps =>
      if maps.length = 0 then s
      else
        let s1 := if s.pauseOnStep then { s with simulationPaused := true } else s
        let idx := (s1.currentMapIndex - 1) % (maps.length : Int)
        { s1 with
            currentMapIndex := idx,
            mapData := (maps.getD idx.toNat emptyRound).board }

/-! ## Concrete inputs used by the claim theorems -/

/-- Header of the constructed test logs: declares a 1×2 board. -/
def logHeader : List Char := "SIZE 1 2".toList

/-- Footer of the constructed test logs. -/
def logFooter : List Char := "\nWINNER NORTH\n".toList

/-- A well-formed round section for a 1×2 board. -/
def goodSection : List Char :=
  ("\nROUND 1\nNORTH 0\nSOUTH 0\n" ++ String.mk SEP25 ++ "\n..\n").toList

/-- The round `goodSection` parses to. -/
def goodRound : Round := ⟨1, 0, 0, [['.', '.']]⟩

/-- A shape-valid section whose board line `".z"` contains the invalid
character `'z'`. -/
def badLineSection : List Char :=
  ("\nROUND 7\nNORTH 0\nSOUTH 0\n" ++ String.mk SEP25 ++ "\n.z\n").toList

/-- A shape-valid section whose board line `"IJ"` carries the fifth-ant
identity characters. -/
def ijSection : List Char :=
  ("\nROUND 7\nNORTH 0\nSOUTH 0\n" ++ String.mk SEP25 ++ "\nIJ\n").toList

/-- A log with `n` copies of `goodSection`. -/
def mkNLog (n : Nat) : String :=
  String.mk (logHeader ++ SEP30 ++
    (List.replicate n (goodSection ++ SEP30)).flatten ++ logFooter)

/-- A log whose single round section is `ijSection`. -/
def ijLog : String :=
  String.mk (logHeader ++ SEP30 ++ ijSection ++ SEP30 ++ logFooter)

/-- A log whose single round section is `badLineSection`. -/
def badLineLog : String :=
  String.mk (logHeader ++ SEP30 ++ badLineSection ++ SEP30 ++ logFooter)

/-- A starting simulation state for the concrete witnesses. -/
def initialSimState : SimState :=
  ⟨none, none, none, 0, BLANK_MAP, false, true, true⟩

/-- A simulation state with a two-round log loaded. -/
def twoRoundSimState : SimState :=
  ⟨some (1, 2), some "NORTH", some [goodRound, goodRound], 0,
   goodRound.board, false, true, true⟩

/-! ## Predicates and spec-side definitions used in theorem statements -/

/-- `chunk` contains no occurrence of `sep` starting before its end,
even counting occurrences that straddle into a following `sep`
(`pySplit` cuts `chunk ++ sep ++ rest` exactly at the explicit `sep`
when this holds). -/
def cleanChunk (sep chunk : List Char) : Bool :=
  (List.range chunk.length).all
    (fun i => !(sep.isPrefixOf ((chunk ++ sep).drop i)))

/-- `chunk` contains no occurrence of `sep` at all. -/
def sepFree (sep chunk : List Char) : Bool :=
  (List.range chunk.length).all (fun i => !(sep.isPrefixOf (chunk.drop i)))

/-- The value the amended C2 claim says `load` keeps for a default key:
the persisted entry's value when the entry exists as a two-element
`[value, tag]` array (with a hashable tag) whose value satisfies the
*stored* tag, else the built-in default. -/
def loadAdoptedValue (kvs : List (String × JVal)) (key : String)
    (dval : JVal) : JVal :=
  match alookup kvs key with
  | some (.list [a, b]) => if typeMatches a b then a else dval
  | _ => dval

/-- The type tag the amended C2 claim says `load` keeps for a default
key (the stored tag when adopted, the built-in tag otherwise). -/
def loadAdoptedHint (kvs : List (String × JVal)) (key : String)
    (dtag : String) : JVal :=
  match alookup kvs key with
  | some (.list [a, b]) => if typeMatches a b then b else .str dtag
  | _ => .str dtag

/-- A persisted settings file whose `cellSize` entry is the pair
`["x", "str"]`: the value is a string, not an `int` as `cellSize`'s
declared type demands, yet it validates against its own stored tag. -/
def badPersist : List (String × JVal) :=
  [("cellSize", .list [.str "x", .str "str"])]

/-- A persisted settings file whose `cellSize` entry carries the
*unhashable* stored tag `["int"]` (a JSON array): probing `type_map`
with it raises `TypeError: unhashable type: 'list'`, which `load` does
not catch. -/
def unhashableTagPersist : List (String × JVal) :=
  [("cellSize", .list [.int 5, .list [.str "int"]])]

/-- An 86-character key-name input (enterable at the interactive
`Enter a key name` prompt of `update_config`) that realizes an exact
score spread of exactly `0.10` over the default key set: its exact
ratio against `stepsPerSecond` is `24/100` (matching blocks of total
size 12), against `stopOnLastStep` is `14/100` (total size 7), and the
other five keys lie strictly between. -/
def ambiguousKeyInput : String :=
  "stepsPerSecowtwfabLalpzueyxlcBoowLipxcstoplLileoxbahctLbLlOPSircpzGTveyLpausPqxGPOSGtl"

/-! ## Supporting lemmas -/

/-- `ainsert` for an absent key appends at the end of the dict. -/
theorem ainsert_eq_append (l : List (String × JVal)) (k : String) (v : JVal)
    (h : alookup l k = none) : ainsert l k v = l ++ [(k, v)] := by
  induction l with
  | nil => rfl
  | cons p rest ih =>
      obtain ⟨k1, v1⟩ := p
      by_cases hk : k1 = k
      · simp [alookup, hk] at h
      · simp only [alookup, hk, if_false] at h
        simp only [ainsert, hk, if_false, List.cons_append, List.cons.injEq,
          true_and]
        exact ih h

/-- `alookup` after an `ainsert` at a different key is unchanged. -/
theorem alookup_ainsert_ne (l : List (String × JVal)) (k k' : String)
    (v : JVal) (h : k ≠ k') : alookup (ainsert l k v) k' = alookup l k' := by
  induction l with
  | nil => simp [ainsert, alookup, h]
  | cons p rest ih =>
      obtain ⟨k1, v1⟩ := p
      by_cases hk : k1 = k
      · simp [ainsert, alookup, hk, h]
      · by_cases hk' : k1 = k'
        · simp [ainsert, alookup, hk, hk', Ne.symm h]
        · simp [ainsert, alookup, hk, hk', ih]

/-- A key found on the left of an append is found in the append. -/
theorem alookup_append_left (l l' : List (String × JVal)) (k : String)
    (v : JVal) (h : alookup l k = some v) :
    alookup (l ++ l') k = some v := by
  induction l with
  | nil => simp [alookup] at h
  | cons p rest ih =>
      obtain ⟨k1, v1⟩ := p
      by_cases hk : k1 = k
      · simp only [alookup, hk, if_true] at h ⊢
        exact h
      · simp only [alookup, hk, if_false] at h ⊢
        exact ih h

/-- The `mapM` inside `save` fails with a `KeyError` on the appended
key when every earlier data key has a type hint and the appended one
does not. -/
theorem mapM_append_missing_hint (hints : List (String × JVal))
    (key : String) (v : JVal) (data : List (String × JVal))
    (hall : ∀ p ∈ data, (alookup hints p.1).isSome = true)
    (hmiss : alookup hints key = none) :
    List.mapM (fun kv =>
      match alookup hints kv.1 with
      | some t => pure (kv.1, JVal.list [kv.2, t])
      | none => throw (PyError.keyError kv.1))
      (data ++ [(key, v)]) =
      (.error (.keyError key) : Except PyError (List (String × JVal))) := by
  induction data with
  | nil =>
      simp only [List.nil_append, List.mapM_cons, List.mapM_nil, hmiss]
      rfl
  | cons p rest ih =>
      have hp : (alookup hints p.1).isSome = true := hall p (by simp)
      obtain ⟨t, ht⟩ := Option.isSome_iff_exists.mp hp
      have hrest : ∀ q ∈ rest, (alookup hints q.1).isSome = true :=
        fun q hq => hall q (by simp [hq])
      simp only [List.cons_append, List.mapM_cons, ht, ih hrest]
      rfl

/-- `save` fails with a `KeyError` on the appended key when every
earlier data key has a type hint and the appended one does not. -/
theorem save_append_missing_hint (data : List (String × JVal))
    (hints : List (String × JVal)) (key : String) (v : JVal)
    (hall : ∀ p ∈ data, (alookup hints p.1).isSome = true)
    (hmiss : alookup hints key = none) :
    AntSettings.save ⟨data ++ [(key, v)], hints⟩ =
      .error (.keyError key) := by
  unfold AntSettings.save
  simp only [mapM_append_missing_hint hints key v data hall hmiss]
  rfl

/-! ## Claim C4 -/

/-- Counterexample to C4 as stated: `True` has runtime type `bool`, not
`int`, yet `settings["cellSize"] = True` — reachable from the console as
`config cellSize true` — raises nothing: Python's
`isinstance(True, int)` holds because `bool` subclasses `int`, so the
validation passes, the store is mutated and the auto-save persists it.
The claim demands a `TypeError` with no mutation here. -/
theorem C4_bool_value_accepted_for_int_tag :
    ((JVal.bool true).typeName == "int") = false ∧
    alookup defaultSettingsState.typeHints "cellSize" =
      some (.str "int") ∧
    (AntSettings.setItem defaultSettingsState "cellSize" (.bool true)).1 =
      .ok () ∧
    alookup (AntSettings.setItem defaultSettingsState "cellSize"
      (.bool true)).2.1.data "cellSize" = some (.bool true) ∧
    ((AntSettings.setItem defaultSettingsState "cellSize"
      (.bool true)).2.2).isSome = true := by
  exact ⟨rfl, rfl, rfl, rfl, rfl⟩

/-- C4 (amended): for every pre-existing settings key carrying a known
type-name tag, and every value failing the tagged type's `isinstance`
check — the check the code actually runs, under which a `bool` value
satisfies the `"int"` tag and an unknown or non-string hashable tag
accepts every value — `AntSettings.__setitem__` raises a `TypeError`
naming the expected and the actual type, leaves the stored mapping
unchanged, and persists nothing. -/
theorem C4_set_type_mismatch_raises_and_preserves_state
    (s : SettingsState) (key : String) (value : JVal) (tagName : String)
    (w : JVal) (hd : alookup s.data key = some w)
    (ht : alookup s.typeHints key = some (.str tagName))
    (hv : typeMatches value (.str tagName) = false) :
    AntSettings.setItem s key value =
      (.error (.typeError ("Expected value of type '" ++ tagName ++
        "' for key '" ++ key ++ "', got '" ++ value.typeName ++
        "' instead.")), s, none) := by
  have hv2 : validateType value (.str tagName) = .ok false := by
    show Except.ok (typeMatches value (.str tagName)) = Except.ok false
    rw [hv]
  unfold AntSettings.setItem
  rw [hd, ht]
  simp only [hv2]

/-- Witness for C4: setting `cellSize` (tag `"int"`) to the string
`"foo"` raises the documented `TypeError` and changes nothing. -/
theorem C4_witness :
    AntSettings.setItem defaultSettingsState "cellSize" (.str "foo") =
      (.error (.typeError ("Expected value of type 'int' for key " ++
        "'cellSize', got 'str' instead.")), defaultSettingsState, none) := by
  have h := C4_set_type_mismatch_raises_and_preserves_state
    defaultSettingsState "cellSize" (.str "foo") "int" (.int 30)
    (by rfl) (by rfl) (by rfl)
  simpa using h

/-! ## Claim C10 -/

/-- C10: assigning a key that is not yet in the settings mapping stores
the value without recording a type tag, so the immediate auto-save
raises a `KeyError` and — while the key remains — every later `save`
does too: the value/type-tag maps are desynchronized. -/
theorem C10_set_new_key_desyncs_and_save_fails
    (s : SettingsState) (key : String) (value : JVal) (av : JVal)
    (hd : alookup s.data key = none)
    (ht : alookup s.typeHints key = none)
    (ha : alookup s.data "autoSave" = some av)
    (hav : av.truthy = true)
    (hsync : ∀ p ∈ s.data, (alookup s.typeHints p.1).isSome = true) :
    AntSettings.setItem s key value =
      (.error (.keyError key),
       ⟨s.data ++ [(key, value)], s.typeHints⟩, none) ∧
    AntSettings.save ⟨s.data ++ [(key, value)], s.typeHints⟩ =
      .error (.keyError key) := by
  have hsave := save_append_missing_hint s.data s.typeHints key value hsync ht
  have hkey : key ≠ "autoSave" := by
    intro he
    rw [he] at hd
    rw [hd] at ha
    exact Option.noConfusion ha
  constructor
  · unfold AntSettings.setItem
    rw [hd]
    unfold AntSettings.setItemStore
    rw [ainsert_eq_append s.data key value hd]
    have ha' : alookup (s.data ++ [(key, value)]) "autoSave" = some av :=
      alookup_append_left s.data [(key, value)] "autoSave" av ha
    simp only [ha', hav, if_true, hsave]
  · exact hsave

/-- Witness for C10: adding the fresh key `"newKey"` to the default
store mutates `data`, records no hint, and the auto-save raises. -/
theorem C10_witness :
    AntSettings.setItem defaultSettingsState "newKey" (.int 1) =
      (.error (.keyError "newKey"),
       ⟨defaultSettingsState.data ++ [("newKey", .int 1)],
        defaultSettingsState.typeHints⟩, none) ∧
    AntSettings.save ⟨defaultSettingsState.data ++ [("newKey", .int 1)],
      defaultSettingsState.typeHints⟩ = .error (.keyError "newKey") :=
  C10_set_new_key_desyncs_and_save_fails defaultSettingsState "newKey"
    (.int 1) (.bool true) (by rfl) (by rfl) (by rfl) (by rfl)
    (by decide)

/-! ## Claim C6 -/

/-- C6: whenever the parse raises, `load_maps` leaves no
partially-applied state: no round list, placeholder board size, no
winner, cursor 0, and the blank placeholder map. -/
theorem C6_parse_failure_resets_to_placeholder (content : String)
    (s : SimState) (five : Bool) (e : String)
    (h : parseLog content = (five, .error e)) :
    (AntSimulation.loadMaps content s).maps = none ∧
    (AntSimulation.loadMaps content s).boardSize = none ∧
    (AntSimulation.loadMaps content s).winner = none ∧
    (AntSimulation.loadMaps content s).currentMapIndex = 0 ∧
    (AntSimulation.loadMaps content s).mapData = BLANK_MAP := by
  unfold AntSimulation.loadMaps
  rw [h]
  exact ⟨rfl, rfl, rfl, rfl, rfl⟩

/-- Witness for C6: the empty file fails (`"Board size not found."`)
and the state falls back to the placeholder. -/
theorem C6_witness :
    (AntSimulation.loadMaps "" twoRoundSimState).maps = none ∧
    (AntSimulation.loadMaps "" twoRoundSimState).boardSize = none ∧
    (AntSimulation.loadMaps "" twoRoundSimState).winner = none ∧
    (AntSimulation.loadMaps "" twoRoundSimState).currentMapIndex = 0 ∧
    (AntSimulation.loadMaps "" twoRoundSimState).mapData = BLANK_MAP :=
  C6_parse_failure_resets_to_placeholder "" twoRoundSimState false
    "Board size not found." (by rfl)

/-! ## Claim C8 -/

/-- Wrapping arithmetic of the cursor (`%` is `Int.emod`, matching
Python's `%` on a positive modulus). -/
theorem emod_cursor_facts (i n : Int) (h1 : 1 < n) (h0 : 0 ≤ i)
    (hlt : i < n) :
    ((i + 1) % n - 1) % n = i ∧ ((i - 1) % n + 1) % n = i ∧
    (i = n - 1 → (i + 1) % n = 0) ∧ (i = 0 → (i - 1) % n = n - 1) := by
  have hone : (1 : Int) % n = 1 := Int.emod_eq_of_lt (by norm_num) h1
  have hi : i % n = i := Int.emod_eq_of_lt h0 hlt
  refine ⟨?_, ?_, ?_, ?_⟩
  · have h2 := Int.sub_emod (i + 1) 1 n
    simp only [add_sub_cancel_right, hone] at h2
    rw [← h2, hi]
  · have h2 := Int.add_emod (i - 1) 1 n
    simp only [sub_add_cancel, hone] at h2
    rw [← h2, hi]
  · intro he
    rw [he, sub_add_cancel, Int.emod_self]
  · intro he
    rw [he, zero_sub]
    have h2 : (-1 + n * 1) % n = (-1 : Int) % n :=
      Int.add_mul_emod_self_left (-1) n 1
    have h3 : (-1 + n * 1 : Int) = n - 1 := by ring
    rw [h3] at h2
    rw [← h2]
    exact Int.emod_eq_of_lt (by omega) (by omega)

/-- The cursor after `step_forward` on a loaded, non-empty log. -/
theorem stepForward_cursor (s : SimState) (ms : List Round)
    (hm : s.maps = some ms) (hne : ms.length ≠ 0) :
    (AntSimulation.stepForward s).currentMapIndex =
      (s.currentMapIndex + 1) % (ms.length : Int) ∧
    (AntSimulation.stepForward s).maps = some ms := by
  unfold AntSimulation.stepForward
  rw [hm]
  by_cases hp : s.pauseOnStep <;> simp [hne, hp, hm]

/-- The cursor after `step_backward` on a loaded, non-empty log. -/
theorem stepBackward_cursor (s : SimState) (ms : List Round)
    (hm : s.maps = some ms) (hne : ms.length ≠ 0) :
    (AntSimulation.stepBackward s).currentMapIndex =
      (s.currentMapIndex - 1) % (ms.length : Int) ∧
    (AntSimulation.stepBackward s).maps = some ms := by
  unfold AntSimulation.stepBackward
  rw [hm]
  by_cases hp : s.pauseOnStep <;> simp [hne, hp, hm]

/-- C8: with more than one round loaded and a valid cursor,
`step_forward` then `step_backward` (and vice versa) restores the
cursor, `step_forward` at the last index wraps to 0, and
`step_backward` at index 0 wraps to the last index. -/
theorem C8_step_round_trip_and_wrap (s : SimState) (ms : List Round)
    (hm : s.maps = some ms) (h1 : 1 < ms.length)
    (h0 : 0 ≤ s.currentMapIndex)
    (hlt : s.currentMapIndex < (ms.length : Int)) :
    (AntSimulation.stepBackward (AntSimulation.stepForward s)).currentMapIndex
      = s.currentMapIndex ∧
    (AntSimulation.stepForward (AntSimulation.stepBackward s)).currentMapIndex
      = s.currentMapIndex ∧
    (s.currentMapIndex = (ms.length : Int) - 1 →
      (AntSimulation.stepForward s).currentMapIndex = 0) ∧
    (s.currentMapIndex = 0 →
      (AntSimulation.stepBackward s).currentMapIndex =
        (ms.length : Int) - 1) := by
  have hne : ms.length ≠ 0 := by omega
  have h1' : (1 : Int) < (ms.length : Int) := by exact_mod_cast h1
  obtain ⟨hf, hfm⟩ := stepForward_cursor s ms hm hne
  obtain ⟨hb, hbm⟩ := stepBackward_cursor s ms hm hne
  obtain ⟨e1, e2, e3, e4⟩ :=
    emod_cursor_facts s.currentMapIndex (ms.length : Int) h1' h0 hlt
  refine ⟨?_, ?_, ?_, ?_⟩
  · obtain ⟨hb', _⟩ :=
      stepBackward_cursor (AntSimulation.stepForward s) ms hfm hne
    rw [hb', hf, e1]
  · obtain ⟨hf', _⟩ :=
      stepForward_cursor (AntSimulation.stepBackward s) ms hbm hne
    rw [hf', hb, e2]
  · intro he
    rw [hf, e3 he]
  · intro he
    rw [hb, e4 he]

/-- Witness for C8: the two-round state at cursor 0. -/
theorem C8_witness :
    (AntSimulation.stepBackward
      (AntSimulation.stepForward twoRoundSimState)).currentMapIndex = 0 ∧
    (AntSimulation.stepForward
      (AntSimulation.stepBackward twoRoundSimState)).currentMapIndex = 0 ∧
    (AntSimulation.stepBackward twoRoundSimState).currentMapIndex = 1 := by
  obtain ⟨a, b, _, d⟩ := C8_step_round_trip_and_wrap twoRoundSimState
    [goodRound, goodRound] (by rfl) (by decide) (by decide) (by decide)
  exact ⟨a, b, by simpa using d rfl⟩

/-! ## Claim C1 -/

set_option maxRecDepth 8000 in
/-- C1 (code bug): the interactive modify path of the `config` command
(`config` with no arguments, option 1, key input `"cellsize"`, which
fuzzy-matches `cellSize`) raises `AttributeError` while building the
value prompt — `AntSettings` defines no `get_key_description` — for
every would-be value input, and the console-input loop, which catches
only `KeyError`, does not survive it: the input thread terminates. -/
theorem C1_config_modify_path_crashes_console_loop :
    (∀ valueInput, updateConfigModify defaultSettingsState "cellsize"
      valueInput = .error (.attributeError "get_key_description")) ∧
    inputLoopSurvives (updateConfigModify defaultSettingsState "cellsize"
      "5") = false := by
  constructor
  · intro v
    rfl
  · rfl

/-! ## Claim C3 -/

/-- A board line that passes validation cannot contain `'I'`: the
valid-character alphabet has no `'I'`. -/
theorem valid_line_no_I (line : List Char)
    (h : line.all (fun ch => VALID_MAP_CHARS.contains ch) = true) :
    line.contains 'I' = false := by
  induction line with
  | nil => rfl
  | cons c rest ih =>
      simp only [List.all_cons, Bool.and_eq_true] at h
      by_cases hc : c = 'I'
      · subst hc
        exact absurd h.1 (by decide)
      · rw [List.contains_cons, ih h.2]
        simp [beq_iff_eq, Ne.symm hc]

/-- The board-validation loop can never raise the five-ant flag: a
line containing `'I'` fails validation first. -/
theorem checkBoardLines_flag_false (cols : Nat) (lines : List (List Char)) :
    (checkBoardLines cols lines false).2 = false := by
  induction lines with
  | nil => rfl
  | cons line rest ih =>
      unfold checkBoardLines
      by_cases hv : (line.length == cols &&
          line.all (fun ch => VALID_MAP_CHARS.contains ch)) = true
      · rw [if_pos hv]
        have hall : line.all (fun ch => VALID_MAP_CHARS.contains ch) = true := by
          simp only [Bool.and_eq_true] at hv
          exact hv.2
        rw [valid_line_no_I line hall]
        simpa using ih
      · rw [if_neg hv]

/-- `processSection` never raises the five-ant flag from a false
start. -/
theorem processSection_flag_false (rows cols : Nat) (sec : List Char) :
    (processSection rows cols false sec).1 = false := by
  unfold processSection
  split
  · rfl
  · split
    · rfl
    · split
      · split
        · rfl
        · split
          · exact checkBoardLines_flag_false cols _
          · exact checkBoardLines_flag_false cols _
      · rfl

/-- The section fold never raises the five-ant flag from a false
start. -/
theorem parseSections_flag_false (rows cols : Nat)
    (secs : List (List Char)) (acc : List Round) :
    (parseSections rows cols secs acc false).1 = false := by
  induction secs generalizing acc with
  | nil => rfl
  | cons sec rest ih =>
      have hps := processSection_flag_false rows cols sec
      unfold parseSections
      rcases hp : processSection rows cols false sec with ⟨five', r⟩
      rw [hp] at hps
      simp only at hps
      subst hps
      cases r with
      | error e => simp
      | ok o =>
          cases o with
          | none => simpa using ih acc
          | some r => simpa using ih (acc ++ [r])

set_option maxRecDepth 40000 in
/-- C3 (code bug): the five-ant flag can never be raised — on every
input, `parseLog` finishes with `has_five_ants = False`, because
`'I'`/`'J'` are not in `VALID_MAP_CHARS`, so a line carrying them fails
validation before the flag assignment is reached.  In particular a log
whose board line is `"IJ"` is rejected outright rather than accepted
with the flag set. -/
theorem C3_five_ant_flag_never_set :
    (∀ content, (parseLog content).1 = false) ∧
    (parseLog ijLog).2 =
      .error ("Valid board data not found in section: " ++
        String.mk ijSection) := by
  constructor
  · intro content
    unfold parseLog
    dsimp only
    split
    · rfl
    · next bs hbs =>
      split
      · rfl
      · next w hw =>
        rcases hp : parseSections bs.1 bs.2
            (List.drop 1 (pySplit SEP30 content.toList)) [] false with ⟨five, r⟩
        have hflag := parseSections_flag_false bs.1 bs.2
          (List.drop 1 (pySplit SEP30 content.toList)) []
        rw [hp] at hflag
        simp only at hflag
        subst hflag
        cases r with
        | error e => simp
        | ok rounds =>
            by_cases hn : (rounds.length != 200) = true <;> simp [hn]
  · rfl

/-! ## Splitting lemmas for the constructed logs (claim C5) -/

/-- A prefix test only inspects the first `p.length` characters. -/
theorem isPrefixOf_append_of_le (p l1 l2 : List Char)
    (h : p.length ≤ l1.length) :
    p.isPrefixOf (l1 ++ l2) = p.isPrefixOf l1 := by
  induction p generalizing l1 with
  | nil =>
      cases l1 with
      | nil => cases l2 <;> rfl
      | cons y l1' => rfl
  | cons x p' ih =>
      cases l1 with
      | nil => simp at h
      | cons y l1' =>
          simp only [List.cons_append, List.isPrefixOf, List.append_eq]
          rw [ih l1' (by simpa using h)]

/-- `pySplitAux` ignores the exact fuel amount once it covers the
list length (for a non-empty separator). -/
theorem pySplitAux_fuel (sep : List Char) (hsep : sep ≠ []) :
    ∀ fuel1 fuel2 l acc, l.length ≤ fuel1 → l.length ≤ fuel2 →
    pySplitAux sep fuel1 l acc = pySplitAux sep fuel2 l acc := by
  intro fuel1
  induction fuel1 with
  | zero =>
      intro fuel2 l acc h1 h2
      have : l = [] := List.length_eq_zero.mp (Nat.le_zero.mp h1)
      subst this
      cases fuel2 <;> rfl
  | succ f ih =>
      intro fuel2 l acc h1 h2
      cases l with
      | nil => cases fuel2 <;> rfl
      | cons c rest =>
          cases fuel2 with
          | zero => simp at h2
          | succ g =>
              have hlen : sep.length ≥ 1 := by
                cases sep with
                | nil => exact absurd rfl hsep
                | cons a b => simp
              simp only [List.length_cons] at h1 h2
              simp only [pySplitAux]
              by_cases hpre : sep.isPrefixOf (c :: rest) = true
              · rw [if_pos hpre, if_pos hpre]
                have hd : ((c :: rest).drop sep.length).length ≤ f := by
                  simp only [List.length_drop, List.length_cons]
                  omega
                have hd2 : ((c :: rest).drop sep.length).length ≤ g := by
                  simp only [List.length_drop, List.length_cons]
                  omega
                rw [ih g _ [] hd hd2]
              · rw [if_neg hpre, if_neg hpre]
                exact ih g rest (c :: acc) (by omega) (by omega)

/-- Dropping the head of a clean chunk leaves a clean chunk. -/
theorem cleanChunk_cons (sep : List Char) (c : Char) (chunk : List Char)
    (h : cleanChunk sep (c :: chunk) = true) :
    cleanChunk sep chunk = true := by
  simp only [cleanChunk, List.all_eq_true, List.mem_range] at h ⊢
  intro i hi
  have := h (i + 1) (by simpa using Nat.succ_lt_succ hi)
  simpa using this

/-- Dropping the head of a separator-free chunk leaves one. -/
theorem sepFree_cons (sep : List Char) (c : Char) (chunk : List Char)
    (h : sepFree sep (c :: chunk) = true) :
    sepFree sep chunk = true := by
  simp only [sepFree, List.all_eq_true, List.mem_range] at h ⊢
  intro i hi
  have := h (i + 1) (by simpa using Nat.succ_lt_succ hi)
  simpa using this

/-- Scanning `chunk ++ sep ++ rest` with a clean `chunk` cuts exactly
at the explicit separator. -/
theorem pySplitAux_chunk (sep : List Char) (hsep : sep ≠ [])
    (chunk : List Char) (rest : List Char)
    (hclean : cleanChunk sep chunk = true) :
    ∀ fuel acc, chunk.length + sep.length + rest.length ≤ fuel →
    pySplitAux sep fuel (chunk ++ (sep ++ rest)) acc =
      (acc.reverse ++ chunk) :: pySplit sep rest := by
  induction chunk generalizing rest with
  | nil =>
      intro fuel acc hfuel
      simp only [List.nil_append, List.length_nil, Nat.zero_add] at hfuel ⊢
      cases sep with
      | nil => exact absurd rfl hsep
      | cons s0 sep' =>
          cases fuel with
          | zero => simp at hfuel
          | succ f =>
              simp only [List.cons_append, List.append_eq, pySplitAux]
              have hpre : (s0 :: sep').isPrefixOf
                  (s0 :: (sep' ++ rest)) = true := by
                rw [List.isPrefixOf_iff_prefix]
                exact List.prefix_append (s0 :: sep') rest
              rw [if_pos hpre]
              have hdrop : List.drop (s0 :: sep').length
                  (s0 :: (sep' ++ rest)) = rest := by
                have := List.drop_left (s0 :: sep') rest
                simp only [List.cons_append] at this
                exact this
              rw [hdrop]
              have hf : rest.length ≤ f := by
                simp only [List.length_cons] at hfuel
                omega
              rw [List.append_nil]
              rw [pySplitAux_fuel (s0 :: sep') hsep f rest.length rest [] hf
                le_rfl]
              rfl
  | cons c chunk' ih =>
      intro fuel acc hfuel
      cases fuel with
      | zero => simp at hfuel
      | succ f =>
          simp only [List.cons_append, List.append_eq, pySplitAux]
          have hle : sep.length ≤ ((c :: chunk') ++ sep).length := by
            simp only [List.length_append, List.length_cons]
            omega
          have key := isPrefixOf_append_of_le sep ((c :: chunk') ++ sep)
            rest hle
          have h00 := List.all_eq_true.mp hclean 0 (by
            simp [List.mem_range])
          simp only [List.drop_zero, Bool.not_eq_true', List.cons_append,
            List.append_assoc] at h00 key
          rw [h00] at key
          rw [if_neg (by simp [key])]
          have hfuel' : chunk'.length + sep.length + rest.length ≤ f := by
            simp only [List.length_cons] at hfuel
            omega
          rw [ih rest (cleanChunk_cons sep c chunk' hclean) f (c :: acc)
            hfuel']
          simp

/-- Scanning a separator-free final chunk yields it whole. -/
theorem pySplitAux_last (sep : List Char) (_hsep : sep ≠ [])
    (chunk : List Char) (hfree : sepFree sep chunk = true) :
    ∀ fuel acc, chunk.length ≤ fuel →
    pySplitAux sep fuel chunk acc = [acc.reverse ++ chunk] := by
  induction chunk with
  | nil =>
      intro fuel acc hfuel
      cases fuel <;> simp [pySplitAux]
  | cons c chunk' ih =>
      intro fuel acc hfuel
      cases fuel with
      | zero => simp at hfuel
      | succ f =>
          simp only [pySplitAux]
          have h0 := List.all_eq_true.mp hfree 0 (by simp [List.mem_range])
          simp only [List.drop_zero, Bool.not_eq_true'] at h0
          rw [if_neg (by simp [h0])]
          rw [ih (sepFree_cons sep c chunk' hfree) f (c :: acc)
            (by simp only [List.length_cons] at hfuel; omega)]
          simp

/-- `pySplit` of `chunk₁ ++ sep ++ ... ++ chunkₙ ++ sep ++ last` is
`[chunk₁, ..., chunkₙ, last]` when every chunk is clean and the tail is
separator-free. -/
theorem pySplit_build (sep : List Char) (hsep : sep ≠ [])
    (chunks : List (List Char)) (last : List Char)
    (hcl : ∀ ch ∈ chunks, cleanChunk sep ch = true)
    (hfree : sepFree sep last = true) :
    pySplit sep ((chunks.map (fun ch => ch ++ sep)).flatten ++ last) =
      chunks ++ [last] := by
  induction chunks with
  | nil =>
      simp only [List.map_nil, List.flatten_nil, List.nil_append]
      exact pySplitAux_last sep hsep last hfree last.length [] le_rfl
  | cons ch chunks' ih =>
      have hch : cleanChunk sep ch = true := hcl ch (by simp)
      have hrest : ∀ x ∈ chunks', cleanChunk sep x = true :=
        fun x hx => hcl x (by simp [hx])
      simp only [List.map_cons, List.flatten_cons, List.append_assoc]
      unfold pySplit
      rw [pySplitAux_chunk sep hsep ch
        ((chunks'.map (fun x => x ++ sep)).flatten ++ last) hch _ []
        (by simp [List.length_append]; omega)]
      simp only [List.reverse_nil, List.nil_append, List.cons_append]
      rw [ih hrest]

set_option maxRecDepth 40000 in
/-- The sections of the constructed `n`-round log. -/
theorem sections_mkNLog (n : Nat) :
    pySplit SEP30 (mkNLog n).toList =
      logHeader :: (List.replicate n goodSection ++ [logFooter]) := by
  have h := pySplit_build SEP30 (by decide)
    (logHeader :: List.replicate n goodSection) logFooter
    (by
      intro ch hch
      rcases List.mem_cons.mp hch with h1 | h1
      · rw [h1]; decide
      · rw [List.eq_of_mem_replicate h1]; decide)
    (by decide)
  simp only [List.map_cons, List.map_replicate, List.flatten_cons,
    List.append_assoc, List.cons_append, List.nil_append] at h
  rw [show (mkNLog n).toList =
    ((logHeader ++ SEP30) ++
      (List.replicate n (goodSection ++ SEP30)).flatten) ++ logFooter
    from rfl]
  simp only [List.append_assoc]
  exact h

/-- The section fold accepts the `k` good sections and skips the
footer. -/
theorem parseSections_good (k : Nat) (acc : List Round) :
    parseSections 1 2 (List.replicate k goodSection ++ [logFooter]) acc
      false = (false, .ok (acc ++ List.replicate k goodRound)) := by
  induction k generalizing acc with
  | zero =>
      simp only [List.replicate_zero, List.nil_append]
      rw [show parseSections 1 2 [logFooter] acc false =
        (false, Except.ok acc) from rfl]
      simp
  | succ k ih =>
      rw [List.replicate_succ, List.cons_append]
      unfold parseSections
      rw [show processSection 1 2 false goodSection =
        (false, Except.ok (some goodRound)) from rfl]
      dsimp only
      rw [ih (acc ++ [goodRound])]
      simp [List.replicate_succ]

set_option maxRecDepth 40000 in
/-- Full evaluation of the parser on the constructed `n`-round log:
the round count is the only thing that can still fail. -/
theorem parseLog_mkNLog (n : Nat) :
    parseLog (mkNLog n) =
      (false,
       if n = 200 then
         .ok ⟨(1, 2), "NORTH", List.replicate n goodRound⟩
       else
         .error ("File contains incomplete game data (" ++ toString n ++
           " rounds, " ++ toString ((200 : Int) - (n : Int)) ++
           " missing)")) := by
  unfold parseLog
  dsimp only
  rw [sections_mkNLog n]
  simp only [List.headD_cons]
  rw [show searchSize (pyStrip logHeader) = some (1, 2) from rfl]
  have hlast : (logHeader ::
      (List.replicate n goodSection ++ [logFooter])).getLastD [] =
      logFooter := by
    rw [show logHeader :: (List.replicate n goodSection ++ [logFooter]) =
      (logHeader :: List.replicate n goodSection) ++ [logFooter] by simp]
    exact List.getLastD_concat _ _ _
  rw [hlast]
  rw [show searchWinner (pyStrip logFooter) = some "NORTH" from rfl]
  dsimp only
  rw [show List.drop 1
    (logHeader :: (List.replicate n goodSection ++ [logFooter])) =
    List.replicate n goodSection ++ [logFooter] from rfl]
  rw [parseSections_good n []]
  dsimp only
  simp only [List.nil_append, List.length_replicate]
  by_cases hn : n = 200
  · subst hn
    simp
  · have hbne : (n != 200) = true := by
      simpa using hn
    rw [if_neg hn, hbne]
    simp

/-! ## Claim C5 -/

/-- C5: `parse` succeeds only with exactly 200 accepted rounds — every
successful parse returns exactly 200 `Round`s; the constructed
well-formed 200-section log parses to 200 rounds; and the same log with
199 sections fails with the round-count `FormatError` even though every
section is well-formed. -/
theorem C5_parse_requires_exactly_200_rounds :
    (∀ content five r, parseLog content = (five, .ok r) →
      r.rounds.length = 200) ∧
    (parseLog (mkNLog 200)).2 =
      .ok ⟨(1, 2), "NORTH", List.replicate 200 goodRound⟩ ∧
    (parseLog (mkNLog 199)).2 =
      .error "File contains incomplete game data (199 rounds, 1 missing)" := by
  refine ⟨?_, ?_, ?_⟩
  · intro content five r h
    unfold parseLog at h
    dsimp only at h
    split at h
    · exact absurd h (by simp)
    · split at h
      · exact absurd h (by simp)
      · split at h
        · exact absurd h (by simp)
        · next five' rounds heq =>
            split at h
            · exact absurd h (by simp)
            · next hn =>
                cases h
                simpa using hn
  · rw [parseLog_mkNLog 200]
    simp
  · rw [parseLog_mkNLog 199]
    norm_num
    rfl

/-- Witness for C5: the 200-section log, with the length read off via
the universal part of the claim theorem. -/
theorem C5_witness :
    parseLog (mkNLog 200) =
      (false, .ok ⟨(1, 2), "NORTH", List.replicate 200 goodRound⟩) ∧
    (⟨(1, 2), "NORTH",
      List.replicate 200 goodRound⟩ : ReplayLog).rounds.length = 200 := by
  have hp : parseLog (mkNLog 200) =
      (false, .ok ⟨(1, 2), "NORTH", List.replicate 200 goodRound⟩) := by
    rw [parseLog_mkNLog 200]
    simp
  exact ⟨hp,
    C5_parse_requires_exactly_200_rounds.1 (mkNLog 200) false _ hp⟩

/-! ## Claim C7 -/

/-- A bad line (wrong length or invalid character) anywhere in the
board slice makes the validation loop fail. -/
theorem checkBoardLines_bad (cols : Nat) (lines : List (List Char))
    (line : List Char) (hmem : line ∈ lines)
    (hbad : ¬(line.length = cols ∧
      line.all (fun ch => VALID_MAP_CHARS.contains ch) = true)) :
    ∀ five, (checkBoardLines cols lines five).1 = false := by
  induction lines with
  | nil => simp at hmem
  | cons l rest ih =>
      intro five
      unfold checkBoardLines
      by_cases hv : (l.length == cols &&
          l.all (fun ch => VALID_MAP_CHARS.contains ch)) = true
      · rw [if_pos hv]
        rcases List.mem_cons.mp hmem with h1 | h1
        · subst h1
          simp only [Bool.and_eq_true, beq_iff_eq] at hv
          exact absurd hv hbad
        · exact ih h1 _
      · rw [if_neg hv]

set_option maxRecDepth 40000 in
/-- C7 (amended): for a shape-valid round section, a missing inner
25-`=` separator, or any board line of the wrong length or with an
invalid character, makes the parse fail with the `FormatError`
`"Valid board data not found in section: <section>"` — the
section-naming message that supersedes the line-naming one (the inner
`except ValueError` catches and replaces it).  The bad-line case is
stated with an existential post-validation flag; the concrete
`badLineLog` shows the failure at the whole-parse level. -/
theorem C7_invalid_board_fails_with_section_error
    (rows cols : Nat) (five : Bool) (sec : List Char) (rn np sp : Nat)
    (h1 : (pyStrip sec).isEmpty = false)
    (h2 : (pySplit ['\n'] (pyStrip sec)).length = 4 + rows)
    (h3 : searchNum "ROUND ".toList
      ((pySplit ['\n'] (pyStrip sec)).getD 0 []) = some rn)
    (h4 : searchNum "NORTH ".toList
      ((pySplit ['\n'] (pyStrip sec)).getD 1 []) = some np)
    (h5 : searchNum "SOUTH ".toList
      ((pySplit ['\n'] (pyStrip sec)).getD 2 []) = some sp) :
    ((pySplit ['\n'] (pyStrip sec)).indexOf? SEP25 = none →
      processSection rows cols five sec =
        (five, .error ("Valid board data not found in section: " ++
          String.mk sec))) ∧
    (∀ idx, (pySplit ['\n'] (pyStrip sec)).indexOf? SEP25 = some idx →
      (∃ line ∈ ((pySplit ['\n'] (pyStrip sec)).drop (idx + 1)).take rows,
        ¬(line.length = cols ∧
          line.all (fun ch => VALID_MAP_CHARS.contains ch) = true)) →
      ∃ fiveAfter, processSection rows cols five sec =
        (fiveAfter, .error ("Valid board data not found in section: " ++
          String.mk sec))) := by
  have hcond : ((pyStrip sec).isEmpty ||
      (pySplit ['\n'] (pyStrip sec)).length != 4 + rows) = false := by
    rw [h1, h2]
    simp
  constructor
  · intro hidx
    unfold processSection
    rw [hcond, h3, h4, h5, hidx]
    rfl
  · intro idx hidx hbad
    obtain ⟨line, hmem, hline⟩ := hbad
    have hchk := checkBoardLines_bad cols
      (((pySplit ['\n'] (pyStrip sec)).drop (idx + 1)).take rows)
      line hmem hline five
    refine ⟨(checkBoardLines cols
      (((pySplit ['\n'] (pyStrip sec)).drop (idx + 1)).take rows)
      five).2, ?_⟩
    unfold processSection
    rw [hcond, h3, h4, h5, hidx]
    show (if (checkBoardLines cols
        (((pySplit ['\n'] (pyStrip sec)).drop (idx + 1)).take rows)
        five).1 = true then
        ((checkBoardLines cols
          (((pySplit ['\n'] (pyStrip sec)).drop (idx + 1)).take rows)
          five).2,
         Except.ok (some (⟨rn, np, sp,
           ((pySplit ['\n'] (pyStrip sec)).drop (idx + 1)).take rows⟩ :
             Round)))
      else
        ((checkBoardLines cols
          (((pySplit ['\n'] (pyStrip sec)).drop (idx + 1)).take rows)
          five).2,
         Except.error ("Valid board data not found in section: " ++
           String.mk sec))) = _
    rw [hchk]
    rfl

set_option maxRecDepth 40000 in
/-- Counterexample to C7 as stated: on a log whose only round section
has the bad board line `".z"`, the parse error is the section-naming
message `"Valid board data not found in section: ..."`, not the
line-naming `"Invalid map format or invalid characters detected: .z"`
the claim describes — the inner exception handler replaces the latter
with the former. -/
theorem C7_error_names_section_not_line :
    (parseLog badLineLog).2 =
      .error ("Valid board data not found in section: " ++
        String.mk badLineSection) ∧
    (("Valid board data not found in section: " ++
      String.mk badLineSection) ==
      ("Invalid map format or invalid characters detected: " ++ ".z")) =
      false := by
  constructor
  · rfl
  · rfl

set_option maxRecDepth 40000 in
/-- Witness for the amended C7: `badLineSection` is shape-valid with
separator at index 3 and bad board line `".z"`; its processing yields
the section-naming error. -/
theorem C7_witness :
    processSection 1 2 false badLineSection =
      (false, .error ("Valid board data not found in section: " ++
        String.mk badLineSection)) := by
  obtain ⟨-, hb⟩ := C7_invalid_board_fails_with_section_error 1 2 false
    badLineSection 7 0 0 (by decide) (by decide) (by rfl) (by rfl) (by rfl)
  obtain ⟨fiveAfter, h⟩ := hb 3 (by rfl)
    ⟨".z".toList, by decide, by decide⟩
  have hflag := processSection_flag_false 1 2 badLineSection
  rw [h] at hflag
  simp only at hflag
  rw [hflag] at h
  exact h

/-! ## Claim C2 -/

/-- Dict membership scan agrees with `alookup`. -/
theorem any_beq_eq_isSome (l : List (String × JVal)) (k : String) :
    (l.any (fun p => p.1 == k)) = (alookup l k).isSome := by
  induction l with
  | nil => rfl
  | cons p rest ih =>
      by_cases hp : p.1 = k
      · simp [alookup, hp]
      · simp [alookup, hp, ih]

/-- A key absent from both halves is absent from the append. -/
theorem alookup_append_none (l l' : List (String × JVal)) (k : String)
    (h : alookup l k = none) (h' : alookup l' k = none) :
    alookup (l ++ l') k = none := by
  induction l with
  | nil => simpa using h'
  | cons p rest ih =>
      obtain ⟨k1, v1⟩ := p
      by_cases hk : k1 = k
      · simp [alookup, hk] at h
      · simp only [alookup, hk, if_false] at h
        simp only [List.cons_append, alookup, hk, if_false]
        exact ih h

/-- The `for key ... in DEFAULT_SETTINGS.items()` fold of `load`, for a
well-formed persisted object (entries at default keys are two-element
arrays whose stored tag is hashable): each key gets the persisted entry
when its value validates against its stored tag, the default otherwise,
all appended in defaults order. -/
theorem loadFold_spec (kvs : List (String × JVal)) :
    ∀ (defaults : List (String × JVal × String))
      (d0 h0 : List (String × JVal)),
    (∀ kvt ∈ defaults, ∀ e, alookup kvs kvt.1 = some e →
      ∃ a b, e = .list [a, b] ∧ pyHashable b = true) →
    (∀ kvt ∈ defaults, alookup d0 kvt.1 = none ∧
      alookup h0 kvt.1 = none) →
    (defaults.map (fun kvt => kvt.1)).Nodup →
    defaults.foldlM (AntSettings.loadStep (.obj kvs)) ⟨d0, h0⟩ =
      .ok ⟨d0 ++ defaults.map (fun kvt =>
             (kvt.1, loadAdoptedValue kvs kvt.1 kvt.2.1)),
           h0 ++ defaults.map (fun kvt =>
             (kvt.1, loadAdoptedHint kvs kvt.1 kvt.2.2))⟩ := by
  intro defaults
  induction defaults with
  | nil =>
      intro d0 h0 _ _ _
      simp only [List.foldlM_nil, List.map_nil, List.append_nil]
      rfl
  | cons kvt rest ih =>
      intro d0 h0 hwf hacc hnd
      obtain ⟨hd0, hh0⟩ := hacc kvt (by simp)
      have hndrest : (rest.map (fun kvt => kvt.1)).Nodup := by
        simp only [List.map_cons, List.nodup_cons] at hnd
        exact hnd.2
      have hkey : kvt.1 ∉ rest.map (fun kvt => kvt.1) := by
        simp only [List.map_cons, List.nodup_cons] at hnd
        exact hnd.1
      have hwfrest : ∀ q ∈ rest, ∀ e, alookup kvs q.1 = some e →
          ∃ a b, e = .list [a, b] ∧ pyHashable b = true :=
        fun q hq => hwf q (by simp [hq])
      rw [List.foldlM_cons]
      have hstep : ∀ newv newh,
          AntSettings.loadStep (.obj kvs) ⟨d0, h0⟩ kvt =
            .ok ⟨ainsert d0 kvt.1 newv, ainsert h0 kvt.1 newh⟩ →
          newv = loadAdoptedValue kvs kvt.1 kvt.2.1 →
          newh = loadAdoptedHint kvs kvt.1 kvt.2.2 →
          (AntSettings.loadStep (.obj kvs) ⟨d0, h0⟩ kvt >>= fun st =>
            rest.foldlM (AntSettings.loadStep (.obj kvs)) st) =
            .ok ⟨d0 ++ (kvt :: rest).map (fun kvt =>
                   (kvt.1, loadAdoptedValue kvs kvt.1 kvt.2.1)),
                 h0 ++ (kvt :: rest).map (fun kvt =>
                   (kvt.1, loadAdoptedHint kvs kvt.1 kvt.2.2))⟩ := by
        intro newv newh hs hv hh
        rw [hs]
        have haccrest : ∀ q ∈ rest,
            alookup (ainsert d0 kvt.1 newv) q.1 = none ∧
            alookup (ainsert h0 kvt.1 newh) q.1 = none := by
          intro q hq
          have hne : kvt.1 ≠ q.1 := by
            intro he
            exact hkey (he ▸ List.mem_map_of_mem (fun kvt => kvt.1) hq)
          obtain ⟨hq1, hq2⟩ := hacc q (by simp [hq])
          rw [alookup_ainsert_ne d0 kvt.1 q.1 newv hne,
            alookup_ainsert_ne h0 kvt.1 q.1 newh hne]
          exact ⟨hq1, hq2⟩
        have := ih (ainsert d0 kvt.1 newv) (ainsert h0 kvt.1 newh)
          hwfrest haccrest hndrest
        simp only [bind, Except.bind, this]
        rw [ainsert_eq_append d0 kvt.1 newv hd0,
          ainsert_eq_append h0 kvt.1 newh hh0]
        simp [hv, hh]
      rcases halk : alookup kvs kvt.1 with _ | e
      · refine hstep kvt.2.1 (.str kvt.2.2) ?_ ?_ ?_
        · unfold AntSettings.loadStep
          simp only [pyContainsKey, any_beq_eq_isSome, halk, bind,
            Except.bind, Option.isSome_none]
          rfl
        · simp [loadAdoptedValue, halk]
        · simp [loadAdoptedHint, halk]
      · obtain ⟨a, b, rfl, hhb⟩ := hwf kvt (by simp) e halk
        have hvab : validateType a b = Except.ok (typeMatches a b) := by
          cases b <;> first | rfl | simp [pyHashable] at hhb
        by_cases hval : typeMatches a b = true
        · refine hstep a b ?_ ?_ ?_
          · unfold AntSettings.loadStep
            simp only [pyContainsKey, any_beq_eq_isSome, halk, bind,
              Except.bind, Option.isSome_some, pyGetStr, pyGetNat]
            simp [bind, Except.bind, pure, Except.pure, hvab, hval]
          · simp [loadAdoptedValue, halk, hval]
          · simp [loadAdoptedHint, halk, hval]
        · refine hstep kvt.2.1 (.str kvt.2.2) ?_ ?_ ?_
          · unfold AntSettings.loadStep
            simp only [pyContainsKey, any_beq_eq_isSome, halk, bind,
              Except.bind, Option.isSome_some, pyGetStr, pyGetNat]
            simp [bind, Except.bind, pure, Except.pure, hvab, hval]
          · simp [loadAdoptedValue, halk, hval]
          · simp [loadAdoptedHint, halk, hval]

/-- The `mapM` inside `save` succeeds when every data key has a type
hint. -/
theorem mapM_isOk_of_sync (hints : List (String × JVal)) :
    ∀ data : List (String × JVal),
    (∀ p ∈ data, (alookup hints p.1).isSome = true) →
    ∃ cd, List.mapM (fun kv =>
      match alookup hints kv.1 with
      | some t => pure (kv.1, JVal.list [kv.2, t])
      | none => throw (PyError.keyError kv.1)) data =
      (.ok cd : Except PyError (List (String × JVal))) := by
  intro data
  induction data with
  | nil => exact fun _ => ⟨[], rfl⟩
  | cons p rest ih =>
      intro h
      obtain ⟨t, ht⟩ := Option.isSome_iff_exists.mp (h p (by simp))
      obtain ⟨cd, hcd⟩ := ih (fun q hq => h q (by simp [hq]))
      refine ⟨(p.1, JVal.list [p.2, t]) :: cd, ?_⟩
      simp only [List.mapM_cons, ht, hcd]
      rfl

/-- `save` succeeds when every data key has a type hint. -/
theorem save_isOk_of_sync (data hints : List (String × JVal))
    (h : ∀ p ∈ data, (alookup hints p.1).isSome = true) :
    ∃ w, AntSettings.save ⟨data, hints⟩ = .ok w := by
  obtain ⟨cd, hcd⟩ := mapM_isOk_of_sync hints data h
  refine ⟨.obj cd, ?_⟩
  unfold AntSettings.save
  simp only [hcd]
  rfl

/-- Any key of the key-preserving map of an association-source list has
a binding in any other key-preserving map of it. -/
theorem alookup_map_of_mem (l : List (String × JVal × String))
    (g : String × JVal × String → JVal) (kvt : String × JVal × String)
    (hm : kvt ∈ l) :
    (alookup (l.map (fun q => (q.1, g q))) kvt.1).isSome = true := by
  induction l with
  | nil => simp at hm
  | cons p rest ih =>
      by_cases hp : p.1 = kvt.1
      · simp [alookup, hp]
      · rcases List.mem_cons.mp hm with h1 | h1
        · exact absurd (congrArg (fun q => q.1) h1.symm) hp
        · simp only [List.map_cons, alookup, hp, if_false]
          exact ih h1

/-- C2 (amended): for a persisted settings file parsing to a JSON
object whose entries at default keys are two-element `[value, tag]`
arrays with *hashable* stored tags, `load` adopts an entry exactly when
its value validates against the stored tag (not the key's declared
default type; an unknown hashable stored tag accepts any value), falls
back to the built-in default otherwise, keeps only default-set keys
(pruning the rest), adopts the full default set when the file is
missing or undecodable, and immediately persists the result in every
such case; an entry whose stored tag is itself an array or object
instead crashes `load` with an uncaught `TypeError` (`unhashable
type`), as the concrete `cellSize ↦ [5, ["int"]]` file shows. -/
theorem C2_load_validates_against_stored_tag
    (kvs : List (String × JVal))
    (hwf : ∀ kvt ∈ DEFAULT_SETTINGS, ∀ e, alookup kvs kvt.1 = some e →
      ∃ a b, e = .list [a, b] ∧ pyHashable b = true) :
    (∃ written, AntSettings.load (.ok (.obj kvs)) =
      .ok (⟨DEFAULT_SETTINGS.map (fun kvt =>
              (kvt.1, loadAdoptedValue kvs kvt.1 kvt.2.1)),
            DEFAULT_SETTINGS.map (fun kvt =>
              (kvt.1, loadAdoptedHint kvs kvt.1 kvt.2.2))⟩, written)) ∧
    (∃ written, AntSettings.load (.error ()) =
      .ok (defaultSettingsState, written)) ∧
    AntSettings.load (.ok (.obj unhashableTagPersist)) =
      .error (.typeError "unhashable type: 'list'") := by
  refine ⟨?_, ?_, by rfl⟩
  · have hfold := loadFold_spec kvs DEFAULT_SETTINGS [] [] hwf
      (fun kvt _ => ⟨rfl, rfl⟩) (by decide)
    have hsync : ∀ p ∈ DEFAULT_SETTINGS.map (fun kvt =>
        (kvt.1, loadAdoptedValue kvs kvt.1 kvt.2.1)),
        (alookup (DEFAULT_SETTINGS.map (fun kvt =>
          (kvt.1, loadAdoptedHint kvs kvt.1 kvt.2.2))) p.1).isSome =
          true := by
      intro p hp
      obtain ⟨kvt, hkvt, rfl⟩ := List.mem_map.mp hp
      exact alookup_map_of_mem DEFAULT_SETTINGS _ kvt hkvt
    obtain ⟨w, hw⟩ := save_isOk_of_sync _ _ hsync
    refine ⟨w, ?_⟩
    unfold AntSettings.load
    simp only [List.nil_append] at hfold
    simp only [bind, Except.bind, hfold, hw]
    rfl
  · obtain ⟨w, hw⟩ := save_isOk_of_sync defaultSettingsState.data
      defaultSettingsState.typeHints (by decide)
    refine ⟨w, ?_⟩
    unfold AntSettings.load
    have hw' : AntSettings.save defaultSettingsState = .ok w := hw
    simp only [bind, Except.bind, hw']
    rfl

/-- Counterexample to C2 as stated: the persisted entry
`cellSize ↦ ["x", "str"]` has a value that does not satisfy
`cellSize`'s declared type (`int`), so the claim demands the built-in
default `30`; the code instead adopts `"x"`, because validation uses
the tag stored in the file. -/
theorem C2_adopted_value_may_violate_declared_type :
    typeMatches (.str "x") (.str "int") = false ∧
    (AntSettings.load (.ok (.obj badPersist))).toOption.map
      (fun p => alookup p.1.data "cellSize") = some (some (.str "x")) ∧
    ((JVal.str "x").typeName == (JVal.int 30).typeName) = false := by
  exact ⟨rfl, rfl, rfl⟩

/-- Witness for the amended C2: the empty persisted object (every
entry vacuously well-formed) loads to the defaults and persists, and
the unhashable-tag file crashes `load`. -/
theorem C2_witness :
    (∃ written, AntSettings.load (.ok (.obj [])) =
      .ok (⟨DEFAULT_SETTINGS.map (fun kvt =>
              (kvt.1, loadAdoptedValue [] kvt.1 kvt.2.1)),
            DEFAULT_SETTINGS.map (fun kvt =>
              (kvt.1, loadAdoptedHint [] kvt.1 kvt.2.2))⟩, written)) ∧
    (∃ written, AntSettings.load (.error ()) =
      .ok (defaultSettingsState, written)) ∧
    AntSettings.load (.ok (.obj unhashableTagPersist)) =
      .error (.typeError "unhashable type: 'list'") :=
  C2_load_validates_against_stored_tag []
    (fun kvt _ e he => by simp [alookup] at he)

/-! ## Claim C9 -/

/-- `ratSub` is exact rational subtraction. -/
theorem ratSub_eq_sub (x y : ℚ) : ratSub x y = x - y := by
  unfold ratSub
  rw [Rat.mkRat_eq_div]
  push_cast
  have hx : (x.den : ℚ) ≠ 0 := by exact_mod_cast x.den_nz
  have hy : (y.den : ℚ) ≠ 0 := by exact_mod_cast y.den_nz
  conv_rhs => rw [← Rat.num_div_den x, ← Rat.num_div_den y]
  rw [div_sub_div _ _ hx hy]
  ring_nf

/-- Stable insertion permutes. -/
theorem insertDesc_perm (x : String × ℚ) (l : List (String × ℚ)) :
    (insertDesc x l).Perm (x :: l) := by
  induction l with
  | nil => rfl
  | cons y ys ih =>
      unfold insertDesc
      by_cases h : y.2 ≤ x.2
      · rw [if_pos h]
      · rw [if_neg h]
        exact (ih.cons y).trans (List.Perm.swap x y ys)

/-- The stable sort permutes. -/
theorem sortDesc_perm (l : List (String × ℚ)) : (sortDesc l).Perm l := by
  induction l with
  | nil => rfl
  | cons x xs ih =>
      exact (insertDesc_perm x (sortDesc xs)).trans (ih.cons x)

/-- The seed is below the maximum fold. -/
theorem le_foldl_max (l : List ℚ) : ∀ a : ℚ, a ≤ l.foldl max a := by
  induction l with
  | nil => exact fun a => le_refl a
  | cons b bs ih =>
      intro a
      exact le_trans (le_max_left a b) (ih (max a b))

/-- The maximum fold is the seed or a list element. -/
theorem foldl_max_mem (l : List ℚ) : ∀ a : ℚ,
    l.foldl max a = a ∨ l.foldl max a ∈ l := by
  induction l with
  | nil => exact fun a => Or.inl rfl
  | cons b bs ih =>
      intro a
      rcases ih (max a b) with h | h
      · rcases max_choice a b with h2 | h2
        · exact Or.inl (by rw [List.foldl_cons, h, h2])
        · exact Or.inr (by rw [List.foldl_cons, h, h2]; simp)
      · exact Or.inr (by simp [h])

/-- Every element is below the maximum fold. -/
theorem mem_le_foldl_max (l : List ℚ) : ∀ (a x : ℚ), x ∈ l →
    x ≤ l.foldl max a := by
  induction l with
  | nil => intro a x hx; simp at hx
  | cons b bs ih =>
      intro a x hx
      rcases List.mem_cons.mp hx with h | h
      · subst h
        exact le_trans (le_max_right a x) (le_foldl_max bs (max a x))
      · exact ih (max a b) x h

/-- `listMax` of a non-empty list is an element. -/
theorem listMax_mem (l : List ℚ) (hne : l ≠ []) : listMax l ∈ l := by
  cases l with
  | nil => exact absurd rfl hne
  | cons c cs =>
      rcases foldl_max_mem cs c with h | h
      · simp [listMax, h]
      · simp [listMax, h]

/-- Every element is at most `listMax`. -/
theorem le_listMax (l : List ℚ) (x : ℚ) (hx : x ∈ l) : x ≤ listMax l := by
  cases l with
  | nil => simp at hx
  | cons c cs =>
      rcases List.mem_cons.mp hx with h | h
      · subst h
        exact le_foldl_max cs x
      · exact mem_le_foldl_max cs c x h

/-- `listMax` only depends on the multiset of elements. -/
theorem listMax_perm (l l' : List ℚ) (h : l.Perm l') :
    listMax l = listMax l' := by
  cases l with
  | nil =>
      have : l' = [] := h.nil_eq.symm
      rw [this]
  | cons c cs =>
      have hne : (c :: cs) ≠ [] := by simp
      have hne' : l' ≠ [] := by
        intro he
        rw [he] at h
        exact absurd h.symm.nil_eq (by simp)
      exact le_antisymm
        (le_listMax l' _ (h.mem_iff.mp (listMax_mem _ hne)))
        (le_listMax _ _ (h.mem_iff.mpr (listMax_mem l' hne')))

/-- The seed is above the minimum fold. -/
theorem foldl_min_le (l : List ℚ) : ∀ a : ℚ, l.foldl min a ≤ a := by
  induction l with
  | nil => exact fun a => le_refl a
  | cons b bs ih =>
      intro a
      exact le_trans (ih (min a b)) (min_le_left a b)

/-- The minimum fold is the seed or a list element. -/
theorem foldl_min_mem (l : List ℚ) : ∀ a : ℚ,
    l.foldl min a = a ∨ l.foldl min a ∈ l := by
  induction l with
  | nil => exact fun a => Or.inl rfl
  | cons b bs ih =>
      intro a
      rcases ih (min a b) with h | h
      · rcases min_choice a b with h2 | h2
        · exact Or.inl (by rw [List.foldl_cons, h, h2])
        · exact Or.inr (by rw [List.foldl_cons, h, h2]; simp)
      · exact Or.inr (by simp [h])

/-- The minimum fold is below every element. -/
theorem foldl_min_le_mem (l : List ℚ) : ∀ (a x : ℚ), x ∈ l →
    l.foldl min a ≤ x := by
  induction l with
  | nil => intro a x hx; simp at hx
  | cons b bs ih =>
      intro a x hx
      rcases List.mem_cons.mp hx with h | h
      · subst h
        exact le_trans (foldl_min_le bs (min a x)) (min_le_right a x)
      · exact ih (min a b) x h

/-- `listMin` of a non-empty list is an element. -/
theorem listMin_mem (l : List ℚ) (hne : l ≠ []) : listMin l ∈ l := by
  cases l with
  | nil => exact absurd rfl hne
  | cons c cs =>
      rcases foldl_min_mem cs c with h | h
      · simp [listMin, h]
      · simp [listMin, h]

/-- `listMin` is at most every element. -/
theorem listMin_le (l : List ℚ) (x : ℚ) (hx : x ∈ l) : listMin l ≤ x := by
  cases l with
  | nil => simp at hx
  | cons c cs =>
      rcases List.mem_cons.mp hx with h | h
      · subst h
        exact foldl_min_le cs x
      · exact foldl_min_le_mem cs c x h

/-- `listMin` only depends on the multiset of elements. -/
theorem listMin_perm (l l' : List ℚ) (h : l.Perm l') :
    listMin l = listMin l' := by
  cases l with
  | nil =>
      have : l' = [] := h.nil_eq.symm
      rw [this]
  | cons c cs =>
      have hne : (c :: cs) ≠ [] := by simp
      have hne' : l' ≠ [] := by
        intro he
        rw [he] at h
        exact absurd h.symm.nil_eq (by simp)
      exact le_antisymm
        (listMin_le _ _ (h.mem_iff.mpr (listMin_mem l' hne')))
        (listMin_le l' _ (h.mem_iff.mp (listMin_mem _ hne)))

/-- Fold-max with a joined seed splits. -/
theorem foldl_max_comm (l : List ℚ) : ∀ a c : ℚ,
    l.foldl max (max a c) = max a (l.foldl max c) := by
  induction l with
  | nil => exact fun a c => rfl
  | cons e es ih =>
      intro a c
      rw [List.foldl_cons, List.foldl_cons, max_assoc, ih a (max c e)]

/-- `listMax` over a cons with a non-empty tail. -/
theorem listMax_cons (a : ℚ) (l : List ℚ) (hne : l ≠ []) :
    listMax (a :: l) = max a (listMax l) := by
  cases l with
  | nil => exact absurd rfl hne
  | cons c cs =>
      show (c :: cs).foldl max a = max a (cs.foldl max c)
      rw [List.foldl_cons, foldl_max_comm cs a c]

/-- The first key attaining the maximal score exists. -/
theorem find_max_isSome (l : List (String × ℚ)) (hne : l ≠ []) :
    (l.find? (fun p => decide (p.2 = listMax (l.map (fun p => p.2))))).isSome
      = true := by
  rw [List.find?_isSome]
  have hmem : listMax (l.map (fun p => p.2)) ∈ l.map (fun p => p.2) :=
    listMax_mem _ (by simpa using hne)
  obtain ⟨p, hp, he⟩ := List.mem_map.mp hmem
  exact ⟨p, hp, by simp [he]⟩

/-- The head of the stable descending sort of a non-empty list is the
first element attaining the maximal score. -/
theorem sortDesc_head_spec (l : List (String × ℚ)) (hne : l ≠ []) :
    ∀ d, ((sortDesc l).headD d).2 = listMax (l.map (fun p => p.2)) ∧
      (sortDesc l).headD d =
        (l.find? (fun p =>
          decide (p.2 = listMax (l.map (fun p => p.2))))).getD d := by
  induction l with
  | nil => exact absurd rfl hne
  | cons x xs ih =>
      intro d
      cases hxs : xs with
      | nil =>
          subst hxs
          constructor
          · rfl
          · simp [sortDesc, insertDesc, listMax, List.find?]
      | cons x2 xs2 =>
          have hxsne : xs ≠ [] := by rw [hxs]; simp
          rw [← hxs]
          have hsne : sortDesc xs ≠ [] := by
            intro he
            have := (sortDesc_perm xs).length_eq
            rw [he] at this
            exact hxsne (List.length_eq_zero.mp this.symm)
          rcases hslist : sortDesc xs with _ | ⟨y, ys⟩
          · exact absurd hslist hsne
          · have hihy := ih hxsne y
            rw [hslist] at hihy
            simp only [List.headD_cons] at hihy
            obtain ⟨hy2, hyfind⟩ := hihy
            have hmapne : xs.map (fun p => p.2) ≠ [] := by
              simpa using hxsne
            have hmx : listMax ((x :: xs).map (fun p => p.2)) =
                max x.2 (listMax (xs.map (fun p => p.2))) := by
              rw [List.map_cons]
              exact listMax_cons x.2 (xs.map (fun p => p.2)) hmapne
            obtain ⟨q, hq⟩ := Option.isSome_iff_exists.mp
              (find_max_isSome xs hxsne)
            rw [hq] at hyfind
            simp only [Option.getD_some] at hyfind
            show ((insertDesc x (sortDesc xs)).headD d).2 = _ ∧
              (insertDesc x (sortDesc xs)).headD d = _
            rw [hslist]
            unfold insertDesc
            by_cases hle : y.2 ≤ x.2
            · rw [if_pos hle]
              have hmx2 : listMax ((x :: xs).map (fun p => p.2)) = x.2 := by
                rw [hmx, ← hy2]
                exact max_eq_left hle
              simp only [List.map_cons] at hmx2
              constructor
              · simp only [List.headD_cons]
                exact hmx2.symm
              · rw [List.find?_cons_of_pos _ (by simp [hmx2])]
                rfl
            · rw [if_neg hle]
              have hlt : x.2 < y.2 := lt_of_not_le hle
              have hmx2 : listMax ((x :: xs).map (fun p => p.2)) =
                  listMax (xs.map (fun p => p.2)) := by
                rw [hmx, ← hy2]
                exact max_eq_right (le_of_lt hlt)
              simp only [List.map_cons] at hmx2
              constructor
              · simp only [List.headD_cons, List.map_cons]
                rw [hmx2]
                exact hy2
              · rw [List.find?_cons_of_neg _ (by
                  simp only [List.map_cons, decide_eq_true_eq, hmx2, ← hy2]
                  exact ne_of_lt hlt)]
                simp only [List.headD_cons, List.map_cons, hmx2, hq,
                  Option.getD_some]
                exact hyfind

set_option maxRecDepth 80000 in
/-- Counterexample to C9 as stated: on this 86-character input the
exact similarity ratios against the default keys have best value
`24/100` (`stepsPerSecond`) and worst value `14/100`
(`stopOnLastStep`), so the mathematical spread is exactly `1/10` — not
below `0.10` — and the best score is not below `0.20`: the claimed
threshold rule accepts and returns `stepsPerSecond`.  The program
compares IEEE doubles, where `0.24 - 0.14` evaluates to
`0.09999999999999998 < 0.1` with `0.24 < 0.3`, so it rejects with
"No good match found." (`getBestMatchKey` is the faithful double
model; `exactScore` is the claim's mathematical ratio). -/
theorem C9_exact_thresholds_diverge_from_float_arithmetic :
    getBestMatchKey defaultKeys ambiguousKeyInput = none ∧
    ratSub (listMax (defaultKeys.map (exactScore ambiguousKeyInput)))
        (listMin (defaultKeys.map (exactScore ambiguousKeyInput))) =
      mkRat 1 10 ∧
    mkRat 1 5 ≤ listMax (defaultKeys.map (exactScore ambiguousKeyInput)) ∧
    listMax (defaultKeys.map (exactScore ambiguousKeyInput)) =
      exactScore ambiguousKeyInput "stepsPerSecond" := by
  refine ⟨?_, ?_, ?_, ?_⟩ <;> decide

set_option maxRecDepth 8000 in
/-- C9 (amended): the fuzzy key match scores every known key with the
IEEE-double `ratio()`, and rejects exactly when the best double score
is below the double `0.2`, or when the double subtraction
best-minus-worst is below the double `0.1` while the best score is
below the double `0.3`; otherwise it returns the first key (in the
encounter order of the settings mapping) attaining the maximal score —
and over the default key set the input `"cellsize"` resolves to
`cellSize`. -/
theorem C9_fuzzy_match_thresholds_and_tie_break
    (keys : List String) (keyName : String) (hne : keys ≠ []) :
    (getBestMatchKey keys keyName = none ↔
      (listMax ((keys.map (fun k => (k, scoreOf keyName k))).map
          (fun p => p.2)) < FLOAT_0_2 ∨
       (floatSub
          (listMax ((keys.map (fun k => (k, scoreOf keyName k))).map
            (fun p => p.2)))
          (listMin ((keys.map (fun k => (k, scoreOf keyName k))).map
            (fun p => p.2))) < FLOAT_0_1 ∧
        listMax ((keys.map (fun k => (k, scoreOf keyName k))).map
          (fun p => p.2)) < FLOAT_0_3))) ∧
    (getBestMatchKey keys keyName = none ∨
      getBestMatchKey keys keyName =
        ((keys.map (fun k => (k, scoreOf keyName k))).find? (fun p =>
          decide (p.2 =
            listMax ((keys.map (fun k => (k, scoreOf keyName k))).map
              (fun p => p.2))))).map (fun p => p.1)) ∧
    getBestMatchKey defaultKeys "cellsize" = some "cellSize" := by
  have hscne : keys.map (fun k => (k, scoreOf keyName k)) ≠ [] := by
    simpa using hne
  have hperm := sortDesc_perm (keys.map (fun k => (k, scoreOf keyName k)))
  have hpermmap := hperm.map (fun p => p.2)
  have hmax := listMax_perm _ _ hpermmap
  have hmin := listMin_perm _ _ hpermmap
  have hsortne : sortDesc (keys.map (fun k => (k, scoreOf keyName k))) ≠
      [] := by
    intro he
    rw [he] at hperm
    exact hscne hperm.nil_eq.symm
  have hie : (sortDesc (keys.map (fun k =>
      (k, scoreOf keyName k)))).isEmpty = false := by
    rcases h : sortDesc (keys.map (fun k => (k, scoreOf keyName k))) with
      _ | ⟨p, ps⟩
    · exact absurd h hsortne
    · rfl
  have hgs : getSortedKeyMatches keys keyName =
      sortDesc (keys.map (fun k => (k, scoreOf keyName k))) := rfl
  have hmain : (getBestMatchKey keys keyName = none ↔
      (listMax ((keys.map (fun k => (k, scoreOf keyName k))).map
          (fun p => p.2)) < FLOAT_0_2 ∨
       (floatSub
          (listMax ((keys.map (fun k => (k, scoreOf keyName k))).map
            (fun p => p.2)))
          (listMin ((keys.map (fun k => (k, scoreOf keyName k))).map
            (fun p => p.2))) < FLOAT_0_1 ∧
        listMax ((keys.map (fun k => (k, scoreOf keyName k))).map
          (fun p => p.2)) < FLOAT_0_3))) ∧
      (getBestMatchKey keys keyName = none ∨
      getBestMatchKey keys keyName =
        ((keys.map (fun k => (k, scoreOf keyName k))).find? (fun p =>
          decide (p.2 =
            listMax ((keys.map (fun k => (k, scoreOf keyName k))).map
              (fun p => p.2))))).map (fun p => p.1)) := by
    unfold getBestMatchKey
    rw [hgs, hie]
    simp only [Bool.false_eq_true, if_false]
    rw [hmax, hmin]
    by_cases hC : (listMax ((keys.map (fun k =>
        (k, scoreOf keyName k))).map (fun p => p.2)) < FLOAT_0_2 ∨
       (floatSub
          (listMax ((keys.map (fun k => (k, scoreOf keyName k))).map
            (fun p => p.2)))
          (listMin ((keys.map (fun k => (k, scoreOf keyName k))).map
            (fun p => p.2))) < FLOAT_0_1 ∧
        listMax ((keys.map (fun k => (k, scoreOf keyName k))).map
          (fun p => p.2)) < FLOAT_0_3))
    · rw [if_pos hC]
      exact ⟨⟨fun _ => hC, fun _ => rfl⟩, Or.inl rfl⟩
    · rw [if_neg hC]
      constructor
      · exact ⟨fun h => Option.noConfusion h, fun h => absurd h hC⟩
      · refine Or.inr ?_
        obtain ⟨hh2, hhfind⟩ := sortDesc_head_spec
          (keys.map (fun k => (k, scoreOf keyName k))) hscne ("", 0)
        obtain ⟨q, hq⟩ := Option.isSome_iff_exists.mp
          (find_max_isSome (keys.map (fun k => (k, scoreOf keyName k)))
            hscne)
        rw [hq] at hhfind
        simp only [Option.getD_some] at hhfind
        rw [hhfind, hq]
        rfl
  exact ⟨hmain.1, hmain.2, by decide⟩

/-- Witness for C9: the default key set is non-empty and the concrete
resolution holds. -/
theorem C9_witness : getBestMatchKey defaultKeys "cellsize" =
    some "cellSize" :=
  (C9_fuzzy_match_thresholds_and_tie_break defaultKeys "cellsize"
    (by decide)).2.2
